import Mathlib

/-!
# CommandMapping (AppMgr) — a verification development

Shallow embedding of `src/components/AppMgr/src/CommandMapping.cpp`.

* The two tables are maps with one entry per key, held as association lists in key
  order; `find`, `insert`, `erase` are the three container operations the code uses.
* A `RegistryItem*` is an `Option RegistryItem`; `none` is the null pointer.
* `unsigned int` counters are natural numbers reduced modulo `2 ^ 32`.
* The enumerators `FIRST` and `LAST` of `CommandType::Type` are declared in the
  header, so every definition that reads one takes it as an argument.
* A call that leaves the behaviour defined by the language ends in a `Fault`: a read
  through a null pointer, or a use of the node that `erase` has destroyed.
* The logging macros come from a header that is not among the sources. A log statement
  whose message reads numbers only is the identity on the registry. The message of the
  subscription log in `addCommand` reads `app->getApplication()->getName()`; whether
  the macro evaluates it is the parameter `infoLogged`.
-/

namespace NsAppManager

/-! ## External entities -/

/-- Modelled from the spec: class `Application` is declared outside the sources; the
registry reads `getName()` (a string) and `getSessionID()` (an integer) from it. -/
structure Application where
  name : String
  sessionID : Int
deriving DecidableEq, Repr

/-- Modelled from the spec: class `RegistryItem` is declared in `AppMgr/RegistryItem.h`,
which is not among the sources. `addr` is the identity of the object and `application`
is what `getApplication()` returns, `none` when the item has no application. -/
structure RegistryItem where
  addr : Nat
  application : Option Application
deriving DecidableEq, Repr

/-- A `RegistryItem*`; `none` is the null pointer. -/
abbrev ItemPtr := Option RegistryItem

/-! ## CommandType -/

/-- Class `CommandType`: a wrapper around one enumerator, held by its ordinal. -/
structure CommandType where
  mType : Int
deriving DecidableEq, Repr

/-- Pre-increment `CommandType::operator++()`: steps to the next ordinal unless the
value is `LAST`; the result is the object after the call. -/
def CommandType.preInc (LAST : Int) (self : CommandType) : CommandType :=
  if self.mType ≠ LAST then
    let type := self.mType + 1
    { mType := type }
  else self

/-- Post-increment `CommandType::operator++(int)`: the returned copy and the object
after the call. -/
def CommandType.postInc (LAST : Int) (self : CommandType) : CommandType × CommandType :=
  let result := self
  (result, CommandType.preInc LAST self)

/-! ## Keys and the two tables -/

/-- A `CommandKey` is the tuple of a command id and a `CommandType`, built by
`CommandKey(commandId, type)` and read by `std::get<0>`. -/
abbrev CommandKey := Nat × CommandType

/-- Modelled from the spec: the order of the keys, command id first and type second
(the tuple's lexicographic `operator<`, the types compared with
`CommandType::operator<`). -/
def CommandKey.lt (a b : CommandKey) : Bool :=
  decide (a.1 < b.1) || (!decide (b.1 < a.1) && decide (a.2.mType < b.2.mType))

/-- Order of the counter table keys (`unsigned int`). -/
def cmdIdLt (a b : Nat) : Bool := decide (a < b)

/-- Lookup `std::map::find`: the value stored under `k`, `none` for `end()`. -/
def mapFind {κ ν : Type} [DecidableEq κ] : List (κ × ν) → κ → Option ν
  | [], _ => none
  | (k', v) :: rest, k => if k' = k then some v else mapFind rest k

/-- Insertion of an entry at its place in key order. -/
def orderedPut {κ ν : Type} (lt : κ → κ → Bool) (e : κ × ν) : List (κ × ν) → List (κ × ν)
  | [] => [e]
  | x :: rest => if lt e.1 x.1 then e :: x :: rest else x :: orderedPut lt e rest

/-- Insertion `std::map::insert`: a key that is already present keeps its entry. -/
def mapInsert {κ ν : Type} [DecidableEq κ] (lt : κ → κ → Bool) (m : List (κ × ν))
    (e : κ × ν) : List (κ × ν) :=
  match mapFind m e.1 with
  | some _ => m
  | none => orderedPut lt e m

/-- Removal `std::map::erase` of the entry stored under `k`. -/
def mapErase {κ ν : Type} [DecidableEq κ] (m : List (κ × ν)) (k : κ) : List (κ × ν) :=
  m.filter (fun e => decide (e.1 ≠ k))

/-- Modelled from the spec: the members of class `CommandMapping`, declared in
`AppMgr/CommandMapping.h`, which is not among the sources. `mCommandMapping` is the
subscription table, a map from `CommandKey` to a `RegistryItem*` with at most one entry
per key; `mRequestsPerCommand` is the table of unresponded-request counters, a map from
command id to `unsigned int`. -/
structure CommandMapping where
  mCommandMapping : List (CommandKey × ItemPtr)
  mRequestsPerCommand : List (Nat × Nat)
deriving DecidableEq, Repr

/-- The registry after the default constructor. -/
def CommandMapping.empty : CommandMapping :=
  { mCommandMapping := [], mRequestsPerCommand := [] }

/-- Number of values of `unsigned int`. -/
def UINT_MOD : Nat := 2 ^ 32

/-- The ways a call leaves the behaviour defined by the language.
`nullApplication`: `getName()` is called through the null result of `getApplication()`
(line 30). `nullRegistryItem`: `getApplication()` is called through a null stored pointer
(line 66). `erasedNode`: the node that `erase` has destroyed is used again, by the read
of its key and by the increment of the iterator that points to it (lines 71 to 73 and
the loop header). -/
inductive Fault where
  | nullApplication
  | nullRegistryItem
  | erasedNode
deriving DecidableEq, Repr

deriving instance DecidableEq for Except

/-- Modelled from the spec: macro `LOG4CPLUS_INFO_EXT` comes from `LoggerHelper.hpp`,
which is not among the sources. The spec has logging as reporting only and leaves its
configuration out of scope. This is the statement whose message reads numbers only: it
returns the registry it is given. The const members return no registry, so their log
statements do not appear at all. -/
abbrev LOG4CPLUS_INFO_EXT (cm : CommandMapping) : CommandMapping := cm

/-- Modelled from the spec: macro `LOG4CPLUS_ERROR_EXT`, as `LOG4CPLUS_INFO_EXT`; an
error is "logged, not thrown". -/
abbrev LOG4CPLUS_ERROR_EXT (cm : CommandMapping) : CommandMapping := cm

/-! ## Counter operations -/

/-- Member `getUnrespondedRequestCount`: the stored counter, `0` without an entry. -/
def getUnrespondedRequestCount (cm : CommandMapping) (cmdId : Nat) : Nat :=
  match mapFind cm.mRequestsPerCommand cmdId with
  | some n => n
  | none => 0

/-- Member `incrementUnrespondedRequestCount`: the new state and the returned value. -/
def incrementUnrespondedRequestCount (cm : CommandMapping) (cmdId : Nat) :
    CommandMapping × Nat :=
  let cm := LOG4CPLUS_INFO_EXT cm
  match mapFind cm.mRequestsPerCommand cmdId with
  | some n =>
    let cm := LOG4CPLUS_INFO_EXT cm
    let reqsCount := (n + 1) % UINT_MOD
    let cm := { cm with mRequestsPerCommand := mapErase cm.mRequestsPerCommand cmdId }
    let cm := { cm with
      mRequestsPerCommand := mapInsert cmdIdLt cm.mRequestsPerCommand (cmdId, reqsCount) }
    (LOG4CPLUS_INFO_EXT cm, reqsCount)
  | none => (LOG4CPLUS_INFO_EXT cm, 0)

/-- Member `decrementUnrespondedRequestCount`: the new state and the returned value;
`it->second - 1` is an unsigned subtraction. -/
def decrementUnrespondedRequestCount (cm : CommandMapping) (cmdId : Nat) :
    CommandMapping × Nat :=
  let cm := LOG4CPLUS_INFO_EXT cm
  match mapFind cm.mRequestsPerCommand cmdId with
  | some n =>
    let cm := LOG4CPLUS_INFO_EXT cm
    let reqsCount := (n + (UINT_MOD - 1)) % UINT_MOD
    let cm := { cm with mRequestsPerCommand := mapErase cm.mRequestsPerCommand cmdId }
    let cm := { cm with
      mRequestsPerCommand := mapInsert cmdIdLt cm.mRequestsPerCommand (cmdId, reqsCount) }
    (LOG4CPLUS_INFO_EXT cm, reqsCount)
  | none => (LOG4CPLUS_INFO_EXT cm, 0)

/-! ## Subscription operations -/

/-- The message of the log statement on line 30: `app->getApplication()->getName()` is
read with no test of the application pointer. -/
def subscribedMessage (item : RegistryItem) : Except Fault String :=
  match item.application with
  | some a => .ok a.name
  | none => .error .nullApplication

/-- Member `addCommand`. The parameter `infoLogged` stands for the absent macro
`LOG4CPLUS_INFO_EXT`: `true` when the statement on line 30 evaluates its message. -/
def addCommand (infoLogged : Bool) (cm : CommandMapping) (commandId : Nat)
    (type : CommandType) (app : ItemPtr) : Except Fault CommandMapping :=
  match app with
  | none => .ok (LOG4CPLUS_ERROR_EXT cm)
  | some item =>
    match (if infoLogged then subscribedMessage item else .ok "") with
    | .error fault => .error fault
    | .ok _ =>
      let cm := { cm with
        mCommandMapping :=
          mapInsert CommandKey.lt cm.mCommandMapping ((commandId, type), some item) }
      let reqsCount := getUnrespondedRequestCount cm commandId
      .ok { cm with
        mRequestsPerCommand := mapInsert cmdIdLt cm.mRequestsPerCommand (commandId, reqsCount) }

/-- Member `removeCommand`. -/
def removeCommand (cm : CommandMapping) (commandId : Nat) (type : CommandType) :
    CommandMapping :=
  let cm1 := { cm with mCommandMapping := mapErase cm.mCommandMapping (commandId, type) }
  (decrementUnrespondedRequestCount cm1 commandId).1

/-- The `for` loop of `removeItem` from the entry the iterator points to, in key order.
An entry that does not match is stepped over. On an entry that matches, line 71 erases
the node the iterator points to; `cmdKey` is a reference into that node, so the read of
its command id on lines 72 and 73 and the `it++` that follows use a destroyed node: the
call ends in `erasedNode`. -/
def removeItemLoop (appSession : Int) :
    List (CommandKey × ItemPtr) → CommandMapping → Except Fault CommandMapping
  | [], cm => .ok cm
  | (_cmdKey, registryItem) :: rest, cm =>
    match registryItem with
    | none => .error .nullRegistryItem
    | some item =>
      match item.application with
      | some a =>
        if a.sessionID = appSession then .error .erasedNode
        else removeItemLoop appSession rest cm
      | none => removeItemLoop appSession rest cm

/-- Member `removeItem`. -/
def removeItem (cm : CommandMapping) (app : ItemPtr) : Except Fault CommandMapping :=
  match app with
  | none => .ok (LOG4CPLUS_ERROR_EXT cm)
  | some item =>
    match item.application with
    | none => .ok (LOG4CPLUS_ERROR_EXT cm)
    | some a => removeItemLoop a.sessionID cm.mCommandMapping cm

/-- Member `findRegistryItemAssignedToCommand`; `none` is the returned `0`. -/
def findRegistryItemAssignedToCommand (cm : CommandMapping) (commandId : Nat)
    (type : CommandType) : ItemPtr :=
  match mapFind cm.mCommandMapping (commandId, type) with
  | some registryItem =>
    match registryItem with
    | some item =>
      match item.application with
      | some _ => some item
      | none => none
    | none => none
  | none => none

/-- Call `std::vector::clear`: the container afterwards. -/
def vecClear {α : Type} (_v : List α) : List α := []

/-- The `for` loop of `getTypes`: `fuel` bounds the number of loop tests, `none`
means the bound was reached before `type` equalled `LAST`. -/
def getTypesLoop (cm : CommandMapping) (LAST : Int) (commandId : Nat) :
    Nat → CommandType → List CommandType → Option (List CommandType)
  | 0, _, _ => none
  | fuel + 1, type, types =>
    if type.mType ≠ LAST then
      let types1 :=
        match mapFind cm.mCommandMapping (commandId, type) with
        | some _ => types ++ [type]
        | none => types
      getTypesLoop cm LAST commandId fuel (CommandType.postInc LAST type).2 types1
    else some types

/-- Member `getTypes`: the content of the output container `types` after the call. -/
def getTypes (fuel : Nat) (cm : CommandMapping) (FIRST LAST : Int) (commandId : Nat)
    (types : List CommandType) : Option (List CommandType) :=
  let types0 := vecClear types
  getTypesLoop cm LAST commandId fuel { mType := FIRST } types0


/-! ## Sequences of calls -/

/-- The state-changing public operations. -/
inductive Op where
  | addCommand (commandId : Nat) (type : CommandType) (app : ItemPtr)
  | removeCommand (commandId : Nat) (type : CommandType)
  | removeItem (app : ItemPtr)
  | increment (cmdId : Nat)
  | decrement (cmdId : Nat)
deriving DecidableEq, Repr

/-- One call on the registry. -/
def step (infoLogged : Bool) (cm : CommandMapping) : Op → Except Fault CommandMapping
  | .addCommand commandId type app => addCommand infoLogged cm commandId type app
  | .removeCommand commandId type => .ok (removeCommand cm commandId type)
  | .removeItem app => removeItem cm app
  | .increment cmdId => .ok (incrementUnrespondedRequestCount cm cmdId).1
  | .decrement cmdId => .ok (decrementUnrespondedRequestCount cm cmdId).1

/-- A sequence of calls, left to right; it stops at the first fault. -/
def run (infoLogged : Bool) (cm : CommandMapping) : List Op → Except Fault CommandMapping
  | [] => .ok cm
  | op :: ops =>
    match step infoLogged cm op with
    | .ok cm1 => run infoLogged cm1 ops
    | .error fault => .error fault

/-- The states in which a run is let go on after `removeItem` has used the erased node:
entries of the subscription table may have been erased, and the counter table has an
entry for the same command ids as before. Nothing is said here of what the code does
then; the relation only widens the set of states over which invariants are proved. -/
def SurvivedRemoval (cm cm1 : CommandMapping) : Prop :=
  cm1.mCommandMapping.Sublist cm.mCommandMapping ∧
  ∀ c, (mapFind cm1.mRequestsPerCommand c).isSome = (mapFind cm.mRequestsPerCommand c).isSome

/-- States reachable from the empty registry. `call` is a call that returns, with
either behaviour of the logging macro. `survived` adds the states of `SurvivedRemoval`
after a `removeItem` that ended in `erasedNode`, so that an invariant proved of every
reachable state also holds if the process lives on after that fault. -/
inductive Reachable : CommandMapping → Prop where
  | empty : Reachable CommandMapping.empty
  | call (infoLogged : Bool) (cm cm1 : CommandMapping) (op : Op) :
      Reachable cm → step infoLogged cm op = .ok cm1 → Reachable cm1
  | survived (cm cm1 : CommandMapping) (app : ItemPtr) :
      Reachable cm → removeItem cm app = .error .erasedNode → SurvivedRemoval cm cm1 →
      Reachable cm1

/-- No entry of the subscription table stores a null pointer. -/
def NoNullItem (m : List (CommandKey × ItemPtr)) : Prop :=
  ∀ e ∈ m, e.2 ≠ none

/-- Every key occurs in at most one entry, as in any `std::map`. -/
def UniqueKeys {κ ν : Type} (m : List (κ × ν)) : Prop :=
  (m.map Prod.fst).Nodup

/-- The session id of a stored pointer's application, when it has one. -/
def sessionOf (p : ItemPtr) : Option Int :=
  match p with
  | some item =>
    match item.application with
    | some a => some a.sessionID
    | none => none
  | none => none

/-- The entry's stored item has an application of session id `s`: the test the loop
of `removeItem` makes on each entry. -/
def isMatch (s : Int) (e : CommandKey × ItemPtr) : Bool :=
  decide (sessionOf e.2 = some s)

/-- The `d` command types of ordinals `x`, `x + 1`, ..., in ascending order. -/
def typesFrom : Int → Nat → List CommandType
  | _, 0 => []
  | x, d + 1 => { mType := x } :: typesFrom (x + 1) d

/-- The key `(commandId, t)` has an entry in the subscription table. -/
def subscribed (cm : CommandMapping) (commandId : Nat) (t : CommandType) : Bool :=
  (mapFind cm.mCommandMapping (commandId, t)).isSome

/-- Every command id that occurs in a key of the subscription table has an entry in the
counter table. -/
def CountersCover (cm : CommandMapping) : Prop :=
  ∀ e ∈ cm.mCommandMapping, mapFind cm.mRequestsPerCommand e.1.1 ≠ none

/-! ## Container lemmas -/

/-- Two keys that the order `CommandKey.lt` does not separate are equal, so the lookup
by equivalence of `std::map` is a lookup by equality. -/
theorem commandKey_equiv_iff_eq (a b : CommandKey) :
    (CommandKey.lt a b = false ∧ CommandKey.lt b a = false) ↔ a = b := by
  obtain ⟨a1, ⟨a2⟩⟩ := a
  obtain ⟨b1, ⟨b2⟩⟩ := b
  simp only [CommandKey.lt, Bool.or_eq_false_iff, Bool.and_eq_false_imp, decide_eq_false_iff_not,
    Bool.not_eq_true', decide_eq_true_eq, Prod.mk.injEq, CommandType.mk.injEq]
  constructor
  · rintro ⟨⟨h1, h2⟩, h3, h4⟩
    have h12 : a1 = b1 := by omega
    refine ⟨h12, ?_⟩
    have := h2 h3
    have := h4 h1
    omega
  · rintro ⟨h1, h2⟩
    subst h1 h2
    simp

theorem mapFind_orderedPut_ne {κ ν : Type} [DecidableEq κ] (lt : κ → κ → Bool)
    (e : κ × ν) (m : List (κ × ν)) (k : κ) (hk : e.1 ≠ k) :
    mapFind (orderedPut lt e m) k = mapFind m k := by
  induction m with
  | nil => simp [orderedPut, mapFind, hk]
  | cons x rest ih =>
    obtain ⟨xk, xv⟩ := x
    simp only [orderedPut]
    split
    · simp [mapFind, hk]
    · simp [mapFind, ih]

theorem mapFind_orderedPut_self {κ ν : Type} [DecidableEq κ] (lt : κ → κ → Bool)
    (e : κ × ν) (m : List (κ × ν)) (h : mapFind m e.1 = none) :
    mapFind (orderedPut lt e m) e.1 = some e.2 := by
  induction m with
  | nil => simp [orderedPut, mapFind]
  | cons x rest ih =>
    obtain ⟨xk, xv⟩ := x
    simp only [mapFind] at h
    split at h
    · cases h
    · rename_i hne
      simp only [orderedPut]
      split
      · simp [mapFind]
      · simp [mapFind, hne, ih h]

theorem mapFind_mapInsert_ne {κ ν : Type} [DecidableEq κ] (lt : κ → κ → Bool)
    (m : List (κ × ν)) (e : κ × ν) (k : κ) (hk : e.1 ≠ k) :
    mapFind (mapInsert lt m e) k = mapFind m k := by
  unfold mapInsert
  split
  · rfl
  · exact mapFind_orderedPut_ne lt e m k hk

theorem mapFind_mapInsert_self {κ ν : Type} [DecidableEq κ] (lt : κ → κ → Bool)
    (m : List (κ × ν)) (e : κ × ν) :
    mapFind (mapInsert lt m e) e.1 = some ((mapFind m e.1).getD e.2) := by
  unfold mapInsert
  split
  · rename_i v hv
    simp [hv]
  · rename_i hv
    simp [hv, mapFind_orderedPut_self lt e m hv]

theorem mapInsert_of_present {κ ν : Type} [DecidableEq κ] (lt : κ → κ → Bool)
    (m : List (κ × ν)) (e : κ × ν) (v : ν) (h : mapFind m e.1 = some v) :
    mapInsert lt m e = m := by
  simp [mapInsert, h]

theorem mapErase_nil {κ ν : Type} [DecidableEq κ] (k : κ) :
    mapErase ([] : List (κ × ν)) k = [] := rfl

theorem mapErase_cons {κ ν : Type} [DecidableEq κ] (x : κ × ν) (rest : List (κ × ν))
    (k : κ) :
    mapErase (x :: rest) k = if x.1 = k then mapErase rest k else x :: mapErase rest k := by
  unfold mapErase
  by_cases hx : x.1 = k <;> simp [List.filter_cons, hx]

theorem mapFind_mapErase_self {κ ν : Type} [DecidableEq κ] (m : List (κ × ν)) (k : κ) :
    mapFind (mapErase m k) k = none := by
  induction m with
  | nil => rfl
  | cons x rest ih =>
    rw [mapErase_cons]
    by_cases hx : x.1 = k
    · simpa [hx] using ih
    · obtain ⟨xk, xv⟩ := x
      simp only [hx, if_false, mapFind]
      simpa [show ¬ xk = k from hx] using ih

theorem mapFind_mapErase_ne {κ ν : Type} [DecidableEq κ] (m : List (κ × ν)) (k k' : κ)
    (hk : k ≠ k') : mapFind (mapErase m k) k' = mapFind m k' := by
  induction m with
  | nil => rfl
  | cons x rest ih =>
    obtain ⟨xk, xv⟩ := x
    rw [mapErase_cons]
    by_cases hx : xk = k
    · subst hx
      simp [mapFind, hk, ih]
    · simp [hx, mapFind, ih]

theorem mapErase_of_absent {κ ν : Type} [DecidableEq κ] (m : List (κ × ν)) (k : κ)
    (h : mapFind m k = none) : mapErase m k = m := by
  induction m with
  | nil => rfl
  | cons x rest ih =>
    obtain ⟨xk, xv⟩ := x
    simp only [mapFind] at h
    split at h
    · cases h
    · rename_i hne
      rw [mapErase_cons]
      simp [hne, ih h]

/-! ## Counter lemmas -/

theorem decrement_of_entry (cm : CommandMapping) (cmdId n : Nat)
    (h : mapFind cm.mRequestsPerCommand cmdId = some n) :
    decrementUnrespondedRequestCount cm cmdId =
      ({ cm with
          mRequestsPerCommand :=
            mapInsert cmdIdLt (mapErase cm.mRequestsPerCommand cmdId)
              (cmdId, (n + (UINT_MOD - 1)) % UINT_MOD) },
        (n + (UINT_MOD - 1)) % UINT_MOD) := by
  simp only [decrementUnrespondedRequestCount, LOG4CPLUS_INFO_EXT, h]

theorem decrement_of_absent (cm : CommandMapping) (cmdId : Nat)
    (h : mapFind cm.mRequestsPerCommand cmdId = none) :
    decrementUnrespondedRequestCount cm cmdId = (cm, 0) := by
  simp only [decrementUnrespondedRequestCount, LOG4CPLUS_INFO_EXT, h]

theorem increment_of_entry (cm : CommandMapping) (cmdId n : Nat)
    (h : mapFind cm.mRequestsPerCommand cmdId = some n) :
    incrementUnrespondedRequestCount cm cmdId =
      ({ cm with
          mRequestsPerCommand :=
            mapInsert cmdIdLt (mapErase cm.mRequestsPerCommand cmdId)
              (cmdId, (n + 1) % UINT_MOD) },
        (n + 1) % UINT_MOD) := by
  simp only [incrementUnrespondedRequestCount, LOG4CPLUS_INFO_EXT, h]

theorem increment_of_absent (cm : CommandMapping) (cmdId : Nat)
    (h : mapFind cm.mRequestsPerCommand cmdId = none) :
    incrementUnrespondedRequestCount cm cmdId = (cm, 0) := by
  simp only [incrementUnrespondedRequestCount, LOG4CPLUS_INFO_EXT, h]

theorem decrement_mCommandMapping (cm : CommandMapping) (cmdId : Nat) :
    (decrementUnrespondedRequestCount cm cmdId).1.mCommandMapping = cm.mCommandMapping := by
  cases h : mapFind cm.mRequestsPerCommand cmdId with
  | none => rw [decrement_of_absent cm cmdId h]
  | some n => rw [decrement_of_entry cm cmdId n h]

theorem increment_mCommandMapping (cm : CommandMapping) (cmdId : Nat) :
    (incrementUnrespondedRequestCount cm cmdId).1.mCommandMapping = cm.mCommandMapping := by
  cases h : mapFind cm.mRequestsPerCommand cmdId with
  | none => rw [increment_of_absent cm cmdId h]
  | some n => rw [increment_of_entry cm cmdId n h]

theorem mapFind_reinsert {ν : Type} (m : List (Nat × ν)) (k : Nat) (v : ν) :
    mapFind (mapInsert cmdIdLt (mapErase m k) (k, v)) k = some v := by
  have h := mapFind_mapInsert_self cmdIdLt (mapErase m k) (k, v)
  rw [mapFind_mapErase_self, Option.getD_none] at h
  exact h

theorem mapFind_reinsert_ne {ν : Type} (m : List (Nat × ν)) (k c : Nat) (v : ν)
    (hc : k ≠ c) :
    mapFind (mapInsert cmdIdLt (mapErase m k) (k, v)) c = mapFind m c := by
  rw [mapFind_mapInsert_ne cmdIdLt _ _ c hc, mapFind_mapErase_ne _ _ _ hc]

theorem decrement_counter_self (cm : CommandMapping) (cmdId : Nat) :
    mapFind (decrementUnrespondedRequestCount cm cmdId).1.mRequestsPerCommand cmdId =
      (mapFind cm.mRequestsPerCommand cmdId).map (fun n => (n + (UINT_MOD - 1)) % UINT_MOD) := by
  cases hn : mapFind cm.mRequestsPerCommand cmdId with
  | none =>
    rw [decrement_of_absent cm cmdId hn, Option.map_none']
    exact hn
  | some n =>
    rw [decrement_of_entry cm cmdId n hn, Option.map_some']
    exact mapFind_reinsert _ _ _

theorem decrement_counter_ne (cm : CommandMapping) (cmdId c : Nat) (hc : cmdId ≠ c) :
    mapFind (decrementUnrespondedRequestCount cm cmdId).1.mRequestsPerCommand c =
      mapFind cm.mRequestsPerCommand c := by
  cases hn : mapFind cm.mRequestsPerCommand cmdId with
  | none => rw [decrement_of_absent cm cmdId hn]
  | some n =>
    rw [decrement_of_entry cm cmdId n hn]
    exact mapFind_reinsert_ne _ _ _ _ hc


theorem getCount_of_entry (cm : CommandMapping) (cmdId n : Nat)
    (h : mapFind cm.mRequestsPerCommand cmdId = some n) :
    getUnrespondedRequestCount cm cmdId = n := by
  simp [getUnrespondedRequestCount, h]

theorem addCommand_ok (infoLogged : Bool) (cm : CommandMapping) (commandId : Nat)
    (type : CommandType) (item : RegistryItem)
    (h : infoLogged = false ∨ item.application ≠ none) :
    addCommand infoLogged cm commandId type (some item) = .ok
      { mCommandMapping :=
          mapInsert CommandKey.lt cm.mCommandMapping ((commandId, type), some item),
        mRequestsPerCommand :=
          mapInsert cmdIdLt cm.mRequestsPerCommand
            (commandId, getUnrespondedRequestCount cm commandId) } := by
  cases infoLogged with
  | false => rfl
  | true =>
    cases happ : item.application with
    | none =>
      rcases h with h | h
      · cases h
      · exact absurd happ h
    | some a =>
      simp only [addCommand, subscribedMessage, happ, if_true, LOG4CPLUS_INFO_EXT]
      rfl

theorem addCommand_null_application (cm : CommandMapping) (commandId : Nat)
    (type : CommandType) (item : RegistryItem) (h : item.application = none) :
    addCommand true cm commandId type (some item) = .error .nullApplication := by
  simp only [addCommand, subscribedMessage, h, if_true]

theorem addCommand_ok_inv (infoLogged : Bool) (cm cm1 : CommandMapping) (commandId : Nat)
    (type : CommandType) (item : RegistryItem)
    (h : addCommand infoLogged cm commandId type (some item) = .ok cm1) :
    cm1 =
      { mCommandMapping :=
          mapInsert CommandKey.lt cm.mCommandMapping ((commandId, type), some item),
        mRequestsPerCommand :=
          mapInsert cmdIdLt cm.mRequestsPerCommand
            (commandId, getUnrespondedRequestCount cm commandId) } := by
  by_cases hc : infoLogged = false ∨ item.application ≠ none
  · rw [addCommand_ok infoLogged cm commandId type item hc] at h
    exact (Except.ok.inj h).symm
  · have h1 : infoLogged = true := by
      cases infoLogged with
      | false => exact absurd (Or.inl rfl) hc
      | true => rfl
    have h2 : item.application = none := by
      cases happ : item.application with
      | none => rfl
      | some a => exact absurd (Or.inr (by rw [happ]; simp)) hc
    rw [h1, addCommand_null_application cm commandId type item h2] at h
    cases h

/-! ## Subscribing -/

/-- Claim C1: when the key `(commandId, type)` has no entry in the subscription table
and the non-null item `item` has an application, `addCommand(commandId, type, item)`
returns, whatever the logging macro does, and the lookup made right after it returns
`item`. -/
theorem addCommand_then_find (infoLogged : Bool) (cm : CommandMapping) (commandId : Nat)
    (type : CommandType) (item : RegistryItem) (a : Application)
    (hfree : mapFind cm.mCommandMapping (commandId, type) = none)
    (happ : item.application = some a) :
    ∃ cm1, addCommand infoLogged cm commandId type (some item) = .ok cm1 ∧
      findRegistryItemAssignedToCommand cm1 commandId type = some item := by
  refine ⟨_, addCommand_ok infoLogged cm commandId type item
    (Or.inr (by rw [happ]; simp)), ?_⟩
  unfold findRegistryItemAssignedToCommand
  have h := mapFind_mapInsert_self CommandKey.lt cm.mCommandMapping
    ((commandId, type), some item)
  simp only [hfree, Option.getD_none] at h
  simp only [h, happ]

/-- Witness of C1: subscribing `(42, 0)` in a registry that only holds `(42, 1)`, with
the log statement evaluating its message. -/
theorem addCommand_then_find_witness :
    ∃ cm1, addCommand true
        { mCommandMapping := [((42, { mType := 1 }),
            some { addr := 2, application := some { name := "Y", sessionID := 9 } })],
          mRequestsPerCommand := [(42, 3)] }
        42 { mType := 0 }
        (some { addr := 1, application := some { name := "X", sessionID := 7 } }) = .ok cm1 ∧
      findRegistryItemAssignedToCommand cm1 42 { mType := 0 }
        = some { addr := 1, application := some { name := "X", sessionID := 7 } } :=
  addCommand_then_find true _ 42 { mType := 0 }
    { addr := 1, application := some { name := "X", sessionID := 7 } }
    { name := "X", sessionID := 7 } (by decide) rfl

/-- First writer wins on every call that returns: when the key is present, the
subscription table after `addCommand` is the one before the call. -/
theorem addCommand_present_key (infoLogged : Bool) (cm cm1 : CommandMapping)
    (commandId : Nat) (type : CommandType) (p : ItemPtr) (app : ItemPtr)
    (hsub : mapFind cm.mCommandMapping (commandId, type) = some p)
    (h : addCommand infoLogged cm commandId type app = .ok cm1) :
    cm1.mCommandMapping = cm.mCommandMapping := by
  cases app with
  | none =>
    cases h
    rfl
  | some item =>
    rw [addCommand_ok_inv infoLogged cm cm1 commandId type item h]
    exact mapInsert_of_present CommandKey.lt cm.mCommandMapping
      ((commandId, type), some item) p hsub

/-- Claim C2, the input on which the code breaks it: `(42, 0)` is subscribed by X, and
`addCommand(42, 0, app2)` is called with an `app2` that has no application while the
log statement of line 30 evaluates its message. The call reads `getName()` through the
null application and ends in a fault, where the claim has the table unchanged and the
lookup still returning X. -/
theorem addCommand_second_subscriber_fault :
    run true CommandMapping.empty
      [Op.addCommand 42 { mType := 0 }
        (some { addr := 1, application := some { name := "X", sessionID := 7 } })]
      = .ok
        { mCommandMapping := [((42, { mType := 0 }),
            some { addr := 1, application := some { name := "X", sessionID := 7 } })],
          mRequestsPerCommand := [(42, 0)] } ∧
    findRegistryItemAssignedToCommand
        { mCommandMapping := [((42, { mType := 0 }),
            some { addr := 1, application := some { name := "X", sessionID := 7 } })],
          mRequestsPerCommand := [(42, 0)] }
        42 { mType := 0 }
      = some { addr := 1, application := some { name := "X", sessionID := 7 } } ∧
    addCommand true
        { mCommandMapping := [((42, { mType := 0 }),
            some { addr := 1, application := some { name := "X", sessionID := 7 } })],
          mRequestsPerCommand := [(42, 0)] }
        42 { mType := 0 } (some { addr := 2, application := none })
      = .error .nullApplication := by
  refine ⟨by decide, by decide, by decide⟩

/-- Claim C7, the input on which the code breaks it: command 42 has count 3, and
`addCommand(42, 1, item)` is called with an `item` that has no application while the
log statement of line 30 evaluates its message. The call reads `getName()` through the
null application and ends in a fault before any insert, where the claim has a counter
entry of value 3 after the call. -/
theorem addCommand_counter_fault :
    getUnrespondedRequestCount
        { mCommandMapping := [((42, { mType := 0 }),
            some { addr := 1, application := some { name := "X", sessionID := 7 } })],
          mRequestsPerCommand := [(42, 3)] } 42 = 3 ∧
    addCommand true
        { mCommandMapping := [((42, { mType := 0 }),
            some { addr := 1, application := some { name := "X", sessionID := 7 } })],
          mRequestsPerCommand := [(42, 3)] }
        42 { mType := 1 } (some { addr := 2, application := none })
      = .error .nullApplication ∧
    run true CommandMapping.empty
      [Op.addCommand 42 { mType := 0 }
        (some { addr := 1, application := some { name := "X", sessionID := 7 } }),
       Op.increment 42, Op.increment 42, Op.increment 42]
      = .ok
        { mCommandMapping := [((42, { mType := 0 }),
            some { addr := 1, application := some { name := "X", sessionID := 7 } })],
          mRequestsPerCommand := [(42, 3)] } := by
  refine ⟨by decide, by decide, by decide⟩

/-- When `addCommand` with a non-null item returns, the counter entry of `commandId`
exists, with the previous value or 0, and the count read is the one before the call. -/
theorem addCommand_counter_kept (infoLogged : Bool) (cm cm1 : CommandMapping)
    (commandId : Nat) (type : CommandType) (item : RegistryItem)
    (h : addCommand infoLogged cm commandId type (some item) = .ok cm1) :
    mapFind cm1.mRequestsPerCommand commandId =
      some ((mapFind cm.mRequestsPerCommand commandId).getD 0) ∧
    getUnrespondedRequestCount cm1 commandId = getUnrespondedRequestCount cm commandId := by
  rw [addCommand_ok_inv infoLogged cm cm1 commandId type item h]
  have hself : mapFind (mapInsert cmdIdLt cm.mRequestsPerCommand
        (commandId, getUnrespondedRequestCount cm commandId)) commandId
      = some ((mapFind cm.mRequestsPerCommand commandId).getD
          (getUnrespondedRequestCount cm commandId)) :=
    mapFind_mapInsert_self cmdIdLt cm.mRequestsPerCommand
      (commandId, getUnrespondedRequestCount cm commandId)
  have hval : (mapFind cm.mRequestsPerCommand commandId).getD
      (getUnrespondedRequestCount cm commandId) = getUnrespondedRequestCount cm commandId := by
    cases hn : mapFind cm.mRequestsPerCommand commandId with
    | none => rfl
    | some n => simp [getUnrespondedRequestCount, hn]
  have hzero : (mapFind cm.mRequestsPerCommand commandId).getD 0
      = getUnrespondedRequestCount cm commandId := by
    cases hn : mapFind cm.mRequestsPerCommand commandId with
    | none => simp [getUnrespondedRequestCount, hn]
    | some n => simp [getUnrespondedRequestCount, hn]
  rw [hval] at hself
  rw [hzero]
  exact ⟨hself, getCount_of_entry _ _ _ hself⟩

/-- Claim C8: `addCommand` with a null item, `removeItem` with a null item and
`removeItem` with an item that has no application return the state they were given:
both tables are unchanged, and so is every later lookup and count. -/
theorem invalid_argument_no_change (infoLogged : Bool) (cm : CommandMapping)
    (commandId : Nat) (type : CommandType) :
    addCommand infoLogged cm commandId type none = .ok cm ∧
    removeItem cm none = .ok cm ∧
    (∀ item : RegistryItem, item.application = none →
      removeItem cm (some item) = .ok cm) := by
  refine ⟨rfl, rfl, ?_⟩
  intro item h
  simp [removeItem, h]

/-- Witness of C8: an item without application given to `removeItem`. -/
theorem invalid_argument_no_change_witness :
    removeItem
      { mCommandMapping :=
          [((42, { mType := 0 }),
              some { addr := 1, application := some { name := "X", sessionID := 7 } })],
        mRequestsPerCommand := [(42, 3)] }
      (some { addr := 1, application := none })
    = .ok
      { mCommandMapping :=
          [((42, { mType := 0 }),
              some { addr := 1, application := some { name := "X", sessionID := 7 } })],
        mRequestsPerCommand := [(42, 3)] } :=
  (invalid_argument_no_change true
    { mCommandMapping :=
        [((42, { mType := 0 }),
            some { addr := 1, application := some { name := "X", sessionID := 7 } })],
      mRequestsPerCommand := [(42, 3)] }
    0 { mType := 0 }).2.2 { addr := 1, application := none } rfl

/-! ## Removal of an item -/

theorem removeItemLoop_ok_inv (s : Int) (l : List (CommandKey × ItemPtr)) :
    ∀ cm cm1 : CommandMapping, removeItemLoop s l cm = .ok cm1 → cm1 = cm := by
  induction l with
  | nil =>
    intro cm cm1 h
    exact (Except.ok.inj h).symm
  | cons x rest ih =>
    intro cm cm1 h
    obtain ⟨cmdKey, registryItem⟩ := x
    cases registryItem with
    | none => cases h
    | some item =>
      cases happ : item.application with
      | none =>
        simp only [removeItemLoop, happ] at h
        exact ih cm cm1 h
      | some a =>
        by_cases hs : a.sessionID = s
        · simp only [removeItemLoop, happ, hs, if_true] at h
          cases h
        · simp only [removeItemLoop, happ, hs, if_false] at h
          exact ih cm cm1 h

theorem removeItem_ok_inv (cm cm1 : CommandMapping) (app : ItemPtr)
    (h : removeItem cm app = .ok cm1) : cm1 = cm := by
  cases app with
  | none => exact (Except.ok.inj h).symm
  | some item =>
    cases happ : item.application with
    | none =>
      simp only [removeItem, happ] at h
      exact (Except.ok.inj h).symm
    | some a =>
      simp only [removeItem, happ] at h
      exact removeItemLoop_ok_inv a.sessionID cm.mCommandMapping cm cm1 h

theorem removeItemLoop_no_match (s : Int) (l : List (CommandKey × ItemPtr))
    (cm : CommandMapping) (hnn : NoNullItem l) (hno : ∀ e ∈ l, isMatch s e = false) :
    removeItemLoop s l cm = .ok cm := by
  induction l with
  | nil => rfl
  | cons x rest ih =>
    obtain ⟨cmdKey, registryItem⟩ := x
    have hrest : NoNullItem rest := fun e he => hnn e (List.mem_cons_of_mem _ he)
    have hnorest : ∀ e ∈ rest, isMatch s e = false :=
      fun e he => hno e (List.mem_cons_of_mem _ he)
    have hhead := hno (cmdKey, registryItem) (List.mem_cons_self _ _)
    cases registryItem with
    | none => exact absurd rfl (hnn (cmdKey, none) (List.mem_cons_self _ _))
    | some item =>
      cases happ : item.application with
      | none =>
        simp only [removeItemLoop, happ]
        exact ih hrest hnorest
      | some a =>
        have hs : ¬ a.sessionID = s := by
          simpa [isMatch, sessionOf, happ] using hhead
        simp only [removeItemLoop, happ, hs, if_false]
        exact ih hrest hnorest

theorem removeItemLoop_match (s : Int) (l : List (CommandKey × ItemPtr))
    (cm : CommandMapping) (hnn : NoNullItem l) (hyes : ∃ e ∈ l, isMatch s e = true) :
    removeItemLoop s l cm = .error .erasedNode := by
  induction l with
  | nil =>
    obtain ⟨e, he, _⟩ := hyes
    cases he
  | cons x rest ih =>
    obtain ⟨cmdKey, registryItem⟩ := x
    have hrest : NoNullItem rest := fun e he => hnn e (List.mem_cons_of_mem _ he)
    cases registryItem with
    | none => exact absurd rfl (hnn (cmdKey, none) (List.mem_cons_self _ _))
    | some item =>
      have htail : isMatch s (cmdKey, some item) = false →
          ∃ e ∈ rest, isMatch s e = true := by
        intro hhead
        obtain ⟨e, he, hm⟩ := hyes
        rcases List.mem_cons.mp he with h1 | h1
        · rw [h1, hhead] at hm
          cases hm
        · exact ⟨e, h1, hm⟩
      cases happ : item.application with
      | none =>
        simp only [removeItemLoop, happ]
        exact ih hrest (htail (by simp [isMatch, sessionOf, happ]))
      | some a =>
        by_cases hs : a.sessionID = s
        · simp only [removeItemLoop, happ, hs, if_true]
        · simp only [removeItemLoop, happ, hs, if_false]
          exact ih hrest (htail (by simp [isMatch, sessionOf, happ, hs]))

theorem removeItemLoop_no_null_fault (s : Int) (l : List (CommandKey × ItemPtr))
    (cm : CommandMapping) (hnn : NoNullItem l) :
    removeItemLoop s l cm ≠ .error .nullRegistryItem := by
  by_cases hyes : ∃ e ∈ l, isMatch s e = true
  · rw [removeItemLoop_match s l cm hnn hyes]
    decide
  · rw [removeItemLoop_no_match s l cm hnn]
    · intro h
      cases h
    · intro e he
      cases hm : isMatch s e with
      | false => rfl
      | true => exact absurd ⟨e, he, hm⟩ hyes

theorem removeItem_no_match (cm : CommandMapping) (item : RegistryItem) (a : Application)
    (happ : item.application = some a) (hnn : NoNullItem cm.mCommandMapping)
    (hno : ∀ e ∈ cm.mCommandMapping, isMatch a.sessionID e = false) :
    removeItem cm (some item) = .ok cm := by
  simp only [removeItem, happ]
  exact removeItemLoop_no_match a.sessionID cm.mCommandMapping cm hnn hno

theorem removeItem_match (cm : CommandMapping) (item : RegistryItem) (a : Application)
    (happ : item.application = some a) (hnn : NoNullItem cm.mCommandMapping)
    (hyes : ∃ e ∈ cm.mCommandMapping, isMatch a.sessionID e = true) :
    removeItem cm (some item) = .error .erasedNode := by
  simp only [removeItem, happ]
  exact removeItemLoop_match a.sessionID cm.mCommandMapping cm hnn hyes

/-- Claim C3, the input on which the code breaks it: `(1, 0)` is subscribed by X of
session 7 and `(2, 0)` by Y of session 9, and `removeItem(X)` is called. On the entry of
X the loop erases the node its iterator points to and then uses that node: the call
ends in a fault, where the claim has it end with the table holding the entry of Y
only. -/
theorem removeItem_table_fault :
    run true CommandMapping.empty
      [Op.addCommand 1 { mType := 0 }
        (some { addr := 1, application := some { name := "X", sessionID := 7 } }),
       Op.addCommand 2 { mType := 0 }
        (some { addr := 2, application := some { name := "Y", sessionID := 9 } })]
      = .ok
        { mCommandMapping :=
            [((1, { mType := 0 }),
                some { addr := 1, application := some { name := "X", sessionID := 7 } }),
             ((2, { mType := 0 }),
                some { addr := 2, application := some { name := "Y", sessionID := 9 } })],
          mRequestsPerCommand := [(1, 0), (2, 0)] } ∧
    removeItem
        { mCommandMapping :=
            [((1, { mType := 0 }),
                some { addr := 1, application := some { name := "X", sessionID := 7 } }),
             ((2, { mType := 0 }),
                some { addr := 2, application := some { name := "Y", sessionID := 9 } })],
          mRequestsPerCommand := [(1, 0), (2, 0)] }
        (some { addr := 1, application := some { name := "X", sessionID := 7 } })
      = .error .erasedNode := by
  refine ⟨by decide, by decide⟩

/-- Claim C9, the input on which the code breaks it: command 1 has two entries of
session 7 and count 2, and `removeItem` is called with an item of session 7. On the
first of the two entries the loop erases the node its iterator points to and then reads
the command id from that node: the call ends in a fault, where the claim has it end with
the counter of command 1 at `2 - 2 = 0`. -/
theorem removeItem_counters_fault :
    run true CommandMapping.empty
      [Op.addCommand 1 { mType := 0 }
        (some { addr := 1, application := some { name := "X", sessionID := 7 } }),
       Op.addCommand 1 { mType := 1 }
        (some { addr := 1, application := some { name := "X", sessionID := 7 } }),
       Op.increment 1, Op.increment 1]
      = .ok
        { mCommandMapping :=
            [((1, { mType := 0 }),
                some { addr := 1, application := some { name := "X", sessionID := 7 } }),
             ((1, { mType := 1 }),
                some { addr := 1, application := some { name := "X", sessionID := 7 } })],
          mRequestsPerCommand := [(1, 2)] } ∧
    getUnrespondedRequestCount
        { mCommandMapping :=
            [((1, { mType := 0 }),
                some { addr := 1, application := some { name := "X", sessionID := 7 } }),
             ((1, { mType := 1 }),
                some { addr := 1, application := some { name := "X", sessionID := 7 } })],
          mRequestsPerCommand := [(1, 2)] } 1 = 2 ∧
    removeItem
        { mCommandMapping :=
            [((1, { mType := 0 }),
                some { addr := 1, application := some { name := "X", sessionID := 7 } }),
             ((1, { mType := 1 }),
                some { addr := 1, application := some { name := "X", sessionID := 7 } })],
          mRequestsPerCommand := [(1, 2)] }
        (some { addr := 1, application := some { name := "X", sessionID := 7 } })
      = .error .erasedNode := by
  refine ⟨by decide, by decide, by decide⟩

/-! ## Reachable states store no null item -/

theorem reachable_of_run (infoLogged : Bool) (ops : List Op) :
    ∀ cm cm1 : CommandMapping, Reachable cm → run infoLogged cm ops = .ok cm1 →
      Reachable cm1 := by
  induction ops with
  | nil =>
    intro cm cm1 hr h
    rw [← Except.ok.inj h]
    exact hr
  | cons op ops ih =>
    intro cm cm1 hr h
    simp only [run] at h
    cases hs : step infoLogged cm op with
    | error fault =>
      rw [hs] at h
      cases h
    | ok cm2 =>
      rw [hs] at h
      exact ih cm2 cm1 (Reachable.call infoLogged cm cm2 op hr hs) h

theorem mem_orderedPut {κ ν : Type} (lt : κ → κ → Bool) (e x : κ × ν) (m : List (κ × ν)) :
    x ∈ orderedPut lt e m ↔ x = e ∨ x ∈ m := by
  induction m with
  | nil => simp [orderedPut]
  | cons y rest ih =>
    simp only [orderedPut]
    split
    · simp
    · simp only [List.mem_cons, ih]
      tauto

theorem noNull_mapInsert (m : List (CommandKey × ItemPtr)) (k : CommandKey)
    (item : RegistryItem) (hnn : NoNullItem m) :
    NoNullItem (mapInsert CommandKey.lt m (k, some item)) := by
  unfold mapInsert
  split
  · exact hnn
  · intro e he
    rcases (mem_orderedPut _ _ _ _).mp he with h | h
    · rw [h]
      simp
    · exact hnn e h

theorem noNull_filter (p : CommandKey × ItemPtr → Bool) (m : List (CommandKey × ItemPtr))
    (hnn : NoNullItem m) : NoNullItem (m.filter p) :=
  fun e he => hnn e (List.mem_filter.mp he).1

theorem noNull_step (infoLogged : Bool) (cm cm1 : CommandMapping) (op : Op)
    (h : step infoLogged cm op = .ok cm1) (hnn : NoNullItem cm.mCommandMapping) :
    NoNullItem cm1.mCommandMapping := by
  cases op with
  | addCommand commandId type app =>
    simp only [step] at h
    cases app with
    | none =>
      rw [← Except.ok.inj h]
      exact hnn
    | some item =>
      rw [addCommand_ok_inv infoLogged cm cm1 commandId type item h]
      exact noNull_mapInsert _ _ _ hnn
  | removeCommand commandId type =>
    simp only [step] at h
    rw [← Except.ok.inj h]
    unfold removeCommand
    rw [decrement_mCommandMapping]
    exact noNull_filter _ _ hnn
  | removeItem app =>
    simp only [step] at h
    rw [removeItem_ok_inv cm cm1 app h]
    exact hnn
  | increment cmdId =>
    simp only [step] at h
    rw [← Except.ok.inj h, increment_mCommandMapping]
    exact hnn
  | decrement cmdId =>
    simp only [step] at h
    rw [← Except.ok.inj h, decrement_mCommandMapping]
    exact hnn

theorem reachable_noNull (cm : CommandMapping) (h : Reachable cm) :
    NoNullItem cm.mCommandMapping := by
  induction h with
  | empty => simp [NoNullItem, CommandMapping.empty]
  | call infoLogged cm cm1 op _ hs ih => exact noNull_step infoLogged cm cm1 op hs ih
  | survived cm cm1 app _ _ hsv ih =>
    exact fun e he => ih e (hsv.1.subset he)

/-! ## Reachable states keep each key once -/

theorem orderedPut_perm {κ ν : Type} (lt : κ → κ → Bool) (e : κ × ν) (m : List (κ × ν)) :
    (orderedPut lt e m).Perm (e :: m) := by
  induction m with
  | nil => exact List.Perm.refl _
  | cons x rest ih =>
    simp only [orderedPut]
    split
    · exact List.Perm.refl _
    · exact (List.Perm.cons x ih).trans (List.Perm.swap e x rest)

theorem not_mem_keys_of_mapFind_none {κ ν : Type} [DecidableEq κ] (m : List (κ × ν))
    (k : κ) (h : mapFind m k = none) : k ∉ m.map Prod.fst := by
  induction m with
  | nil => simp
  | cons x rest ih =>
    obtain ⟨xk, xv⟩ := x
    simp only [mapFind] at h
    split at h
    · cases h
    · rename_i hne
      simp only [List.map_cons, List.mem_cons, not_or]
      exact ⟨fun hk => hne hk.symm, ih h⟩

theorem uniqueKeys_mapInsert {κ ν : Type} [DecidableEq κ] (lt : κ → κ → Bool)
    (m : List (κ × ν)) (e : κ × ν) (h : UniqueKeys m) : UniqueKeys (mapInsert lt m e) := by
  unfold mapInsert
  split
  · exact h
  · rename_i hnone
    unfold UniqueKeys at h ⊢
    have hperm := (orderedPut_perm lt e m).map Prod.fst
    rw [hperm.nodup_iff]
    simp only [List.map_cons, List.nodup_cons]
    exact ⟨not_mem_keys_of_mapFind_none m e.1 hnone, h⟩

theorem uniqueKeys_filter {κ ν : Type} (p : κ × ν → Bool) (m : List (κ × ν))
    (h : UniqueKeys m) : UniqueKeys (m.filter p) :=
  List.Nodup.sublist ((List.filter_sublist m).map Prod.fst) h

theorem uniqueKeys_step (infoLogged : Bool) (cm cm1 : CommandMapping) (op : Op)
    (h : step infoLogged cm op = .ok cm1) (hu : UniqueKeys cm.mCommandMapping) :
    UniqueKeys cm1.mCommandMapping := by
  cases op with
  | addCommand commandId type app =>
    simp only [step] at h
    cases app with
    | none =>
      rw [← Except.ok.inj h]
      exact hu
    | some item =>
      rw [addCommand_ok_inv infoLogged cm cm1 commandId type item h]
      exact uniqueKeys_mapInsert _ _ _ hu
  | removeCommand commandId type =>
    simp only [step] at h
    rw [← Except.ok.inj h]
    unfold removeCommand
    rw [decrement_mCommandMapping]
    exact uniqueKeys_filter _ _ hu
  | removeItem app =>
    simp only [step] at h
    rw [removeItem_ok_inv cm cm1 app h]
    exact hu
  | increment cmdId =>
    simp only [step] at h
    rw [← Except.ok.inj h, increment_mCommandMapping]
    exact hu
  | decrement cmdId =>
    simp only [step] at h
    rw [← Except.ok.inj h, decrement_mCommandMapping]
    exact hu

theorem reachable_uniqueKeys (cm : CommandMapping) (h : Reachable cm) :
    UniqueKeys cm.mCommandMapping := by
  induction h with
  | empty => simp [UniqueKeys, CommandMapping.empty]
  | call infoLogged cm cm1 op _ hs ih => exact uniqueKeys_step infoLogged cm cm1 op hs ih
  | survived cm cm1 app _ _ hsv ih =>
    exact List.Nodup.sublist (hsv.1.map Prod.fst) ih

/-! ## Counters under removal -/

theorem removeCommand_counter_self (cm : CommandMapping) (commandId : Nat)
    (type : CommandType) :
    mapFind (removeCommand cm commandId type).mRequestsPerCommand commandId =
      (mapFind cm.mRequestsPerCommand commandId).map
        (fun n => (n + (UINT_MOD - 1)) % UINT_MOD) := by
  unfold removeCommand
  rw [decrement_counter_self]

/-- Claim C4, as amended: the counters are unsigned 32-bit values and there is no clamp.
In every state, the reachable ones included, a decrement applied to a counter whose
value is 0 stores `2 ^ 32 - 1`: `decrementUnrespondedRequestCount` returns and stores
it, and `removeCommand` stores it; `getUnrespondedRequestCount` returns `2 ^ 32 - 1`
afterwards. -/
theorem decrement_at_zero_wraps (cm : CommandMapping) (cmdId : Nat)
    (h0 : mapFind cm.mRequestsPerCommand cmdId = some 0) :
    (decrementUnrespondedRequestCount cm cmdId).2 = 2 ^ 32 - 1 ∧
    getUnrespondedRequestCount (decrementUnrespondedRequestCount cm cmdId).1 cmdId
      = 2 ^ 32 - 1 ∧
    (∀ type, getUnrespondedRequestCount (removeCommand cm cmdId type) cmdId
      = 2 ^ 32 - 1) := by
  refine ⟨?_, ?_, ?_⟩
  · rw [decrement_of_entry cm cmdId 0 h0]
    simp [UINT_MOD]
  · apply getCount_of_entry
    rw [decrement_counter_self, h0]
    simp [UINT_MOD]
  · intro type
    apply getCount_of_entry
    rw [removeCommand_counter_self, h0]
    simp [UINT_MOD]

/-- Witness of C4: the state after `addCommand(42, 0, X)`, whose counter of 42 is 0. -/
theorem decrement_at_zero_wraps_witness :
    getUnrespondedRequestCount
      (removeCommand
        { mCommandMapping := [((42, { mType := 0 }),
            some { addr := 1, application := some { name := "X", sessionID := 7 } })],
          mRequestsPerCommand := [(42, 0)] }
        42 { mType := 0 }) 42 = 2 ^ 32 - 1 :=
  (decrement_at_zero_wraps
    { mCommandMapping := [((42, { mType := 0 }),
        some { addr := 1, application := some { name := "X", sessionID := 7 } })],
      mRequestsPerCommand := [(42, 0)] }
    42 rfl).2.2 { mType := 0 }

/-- Counterexample to C4 as stated: after `addCommand(42, 0, X)` and
`removeCommand(42, 0)` the count of 42 is `4294967295`, not 0. -/
theorem removeCommand_wraps_example :
    run true CommandMapping.empty
      [Op.addCommand 42 { mType := 0 }
          (some { addr := 1, application := some { name := "X", sessionID := 7 } }),
       Op.removeCommand 42 { mType := 0 }]
      = .ok { mCommandMapping := [], mRequestsPerCommand := [(42, 4294967295)] } ∧
    getUnrespondedRequestCount
      { mCommandMapping := [], mRequestsPerCommand := [(42, 4294967295)] } 42 = 4294967295 ∧
    ¬ ∀ (cm : CommandMapping), Reachable cm → ∀ (cmdId : Nat) (type : CommandType),
        mapFind cm.mRequestsPerCommand cmdId = some 0 →
        getUnrespondedRequestCount (removeCommand cm cmdId type) cmdId = 0 := by
  refine ⟨by decide, by decide, ?_⟩
  intro h
  have h1 := h
    { mCommandMapping := [((42, { mType := 0 }),
        some { addr := 1, application := some { name := "X", sessionID := 7 } })],
      mRequestsPerCommand := [(42, 0)] }
    (reachable_of_run true
      [Op.addCommand 42 { mType := 0 }
        (some { addr := 1, application := some { name := "X", sessionID := 7 } })]
      CommandMapping.empty _ Reachable.empty (by decide))
    42 { mType := 0 } rfl
  revert h1
  decide

/-- Claim C5: when the count of `commandId` is `n ≥ 1` (an unsigned 32-bit value),
`removeCommand(commandId, type)` leaves it at `n - 1`, for every `type`, whether or
not `(commandId, type)` had a subscriber. -/
theorem removeCommand_decrements (cm : CommandMapping) (commandId : Nat)
    (type : CommandType) (n : Nat)
    (hcount : getUnrespondedRequestCount cm commandId = n) (hpos : 1 ≤ n)
    (hlt : n < 2 ^ 32) :
    getUnrespondedRequestCount (removeCommand cm commandId type) commandId = n - 1 ∧
    mapFind (removeCommand cm commandId type).mRequestsPerCommand commandId
      = some (n - 1) := by
  have hentry : mapFind cm.mRequestsPerCommand commandId = some n := by
    unfold getUnrespondedRequestCount at hcount
    cases hf : mapFind cm.mRequestsPerCommand commandId with
    | none =>
      rw [hf] at hcount
      simp only at hcount
      omega
    | some k =>
      rw [hf] at hcount
      simp only at hcount
      rw [hcount]
  have hval : (n + (UINT_MOD - 1)) % UINT_MOD = n - 1 := by
    unfold UINT_MOD
    omega
  have hafter : mapFind (removeCommand cm commandId type).mRequestsPerCommand commandId
      = some (n - 1) := by
    rw [removeCommand_counter_self, hentry]
    simp [hval]
  exact ⟨getCount_of_entry _ _ _ hafter, hafter⟩

/-- Witness of C5, the scenario of the specification: `(42, 0)` and `(42, 1)` subscribed
by X and two increments give count 2; `removeCommand(42, 0)` gives count 1, `(42, 0)` is
no longer found and `(42, 1)` still resolves to X. -/
theorem removeCommand_decrements_witness :
    getUnrespondedRequestCount
      (removeCommand
        { mCommandMapping :=
            [((42, { mType := 0 }),
                some { addr := 1, application := some { name := "X", sessionID := 7 } }),
             ((42, { mType := 1 }),
                some { addr := 1, application := some { name := "X", sessionID := 7 } })],
          mRequestsPerCommand := [(42, 2)] }
        42 { mType := 0 }) 42 = 2 - 1 ∧
    run true CommandMapping.empty
      [Op.addCommand 42 { mType := 0 }
          (some { addr := 1, application := some { name := "X", sessionID := 7 } }),
       Op.addCommand 42 { mType := 1 }
          (some { addr := 1, application := some { name := "X", sessionID := 7 } }),
       Op.increment 42, Op.increment 42]
      = .ok
        { mCommandMapping :=
            [((42, { mType := 0 }),
                some { addr := 1, application := some { name := "X", sessionID := 7 } }),
             ((42, { mType := 1 }),
                some { addr := 1, application := some { name := "X", sessionID := 7 } })],
          mRequestsPerCommand := [(42, 2)] } ∧
    findRegistryItemAssignedToCommand
      (removeCommand
        { mCommandMapping :=
            [((42, { mType := 0 }),
                some { addr := 1, application := some { name := "X", sessionID := 7 } }),
             ((42, { mType := 1 }),
                some { addr := 1, application := some { name := "X", sessionID := 7 } })],
          mRequestsPerCommand := [(42, 2)] }
        42 { mType := 0 }) 42 { mType := 0 } = none ∧
    findRegistryItemAssignedToCommand
      (removeCommand
        { mCommandMapping :=
            [((42, { mType := 0 }),
                some { addr := 1, application := some { name := "X", sessionID := 7 } }),
             ((42, { mType := 1 }),
                some { addr := 1, application := some { name := "X", sessionID := 7 } })],
          mRequestsPerCommand := [(42, 2)] }
        42 { mType := 0 }) 42 { mType := 1 }
      = some { addr := 1, application := some { name := "X", sessionID := 7 } } :=
  ⟨(removeCommand_decrements
      { mCommandMapping :=
          [((42, { mType := 0 }),
              some { addr := 1, application := some { name := "X", sessionID := 7 } }),
           ((42, { mType := 1 }),
              some { addr := 1, application := some { name := "X", sessionID := 7 } })],
        mRequestsPerCommand := [(42, 2)] }
      42 { mType := 0 } 2 rfl (by decide) (by decide)).1,
    by decide, by decide, by decide⟩

/-- Claim C6: after `removeCommand(commandId, type)` the key `(commandId, type)` is
absent from the subscription table and the lookup returns not-found; when the key was
already absent the subscription table is unchanged. The call always returns. -/
theorem removeCommand_erases_key (cm : CommandMapping) (commandId : Nat)
    (type : CommandType) :
    mapFind (removeCommand cm commandId type).mCommandMapping (commandId, type) = none ∧
    findRegistryItemAssignedToCommand (removeCommand cm commandId type) commandId type
      = none ∧
    (mapFind cm.mCommandMapping (commandId, type) = none →
      (removeCommand cm commandId type).mCommandMapping = cm.mCommandMapping) := by
  have htab : (removeCommand cm commandId type).mCommandMapping
      = mapErase cm.mCommandMapping (commandId, type) := by
    unfold removeCommand
    rw [decrement_mCommandMapping]
  have habs : mapFind (removeCommand cm commandId type).mCommandMapping (commandId, type)
      = none := by
    rw [htab]
    exact mapFind_mapErase_self _ _
  refine ⟨habs, ?_, ?_⟩
  · unfold findRegistryItemAssignedToCommand
    rw [habs]
  · intro h
    rw [htab]
    exact mapErase_of_absent _ _ h

/-- Witness of C6: `removeCommand(42, 1)` when only `(42, 0)` is subscribed. -/
theorem removeCommand_erases_key_witness :
    (removeCommand
        { mCommandMapping :=
            [((42, { mType := 0 }),
                some { addr := 1, application := some { name := "X", sessionID := 7 } })],
          mRequestsPerCommand := [(42, 1)] }
        42 { mType := 1 }).mCommandMapping
      = [((42, { mType := 0 }),
            some { addr := 1, application := some { name := "X", sessionID := 7 } })] :=
  (removeCommand_erases_key
    { mCommandMapping :=
        [((42, { mType := 0 }),
            some { addr := 1, application := some { name := "X", sessionID := 7 } })],
      mRequestsPerCommand := [(42, 1)] }
    42 { mType := 1 }).2.2 (by decide)


/-! ## Enumeration of the types of a command -/

theorem mem_typesFrom (d : Nat) :
    ∀ (x : Int) (t : CommandType),
      t ∈ typesFrom x d ↔ (x ≤ t.mType ∧ t.mType < x + d) := by
  induction d with
  | zero =>
    intro x t
    simp only [typesFrom, List.not_mem_nil, false_iff]
    omega
  | succ d ih =>
    intro x t
    simp only [typesFrom, List.mem_cons, ih]
    constructor
    · rintro (h | h)
      · subst h
        dsimp only
        omega
      · omega
    · intro h
      by_cases hx : t.mType = x
      · left
        cases t
        simp only at hx
        rw [hx]
      · right
        omega

theorem pairwise_typesFrom (d : Nat) :
    ∀ x : Int, (typesFrom x d).Pairwise (fun t1 t2 => t1.mType < t2.mType) := by
  induction d with
  | zero =>
    intro x
    exact List.Pairwise.nil
  | succ d ih =>
    intro x
    simp only [typesFrom, List.pairwise_cons]
    refine ⟨?_, ih (x + 1)⟩
    intro t ht
    have := (mem_typesFrom d (x + 1) t).mp ht
    omega

theorem getTypesLoop_spec (cm : CommandMapping) (LAST : Int) (commandId : Nat) (d : Nat) :
    ∀ (x : Int) (types : List CommandType) (fuel : Nat),
      x + d = LAST → d + 1 ≤ fuel →
      getTypesLoop cm LAST commandId fuel { mType := x } types
        = some (types ++ (typesFrom x d).filter (subscribed cm commandId)) := by
  induction d with
  | zero =>
    intro x types fuel hx hfuel
    obtain ⟨f, rfl⟩ : ∃ f, fuel = f + 1 := ⟨fuel - 1, by omega⟩
    have hxl : x = LAST := by omega
    simp [getTypesLoop, typesFrom, hxl]
  | succ d ih =>
    intro x types fuel hx hfuel
    obtain ⟨f, rfl⟩ : ∃ f, fuel = f + 1 := ⟨fuel - 1, by omega⟩
    have hne : x ≠ LAST := by omega
    have hnext : (CommandType.postInc LAST { mType := x }).2 = { mType := x + 1 } := by
      simp [CommandType.postInc, CommandType.preInc, hne]
    simp only [getTypesLoop, ne_eq, hne, not_false_eq_true, if_true, hnext]
    cases hfind : mapFind cm.mCommandMapping (commandId, { mType := x }) with
    | none =>
      dsimp only
      rw [ih (x + 1) types f (by omega) (by omega)]
      simp [typesFrom, List.filter_cons, subscribed, hfind]
    | some p =>
      dsimp only
      rw [ih (x + 1) (types ++ [CommandType.mk x]) f (by omega) (by omega)]
      simp [typesFrom, List.filter_cons, subscribed, hfind]

/-- Claim C10: with `FIRST ≤ LAST` and enough fuel for the `LAST - FIRST + 1` loop tests,
`getTypes(commandId)` returns, whatever the output container held before; the list is
strictly ascending in ordinal, has no duplicates, contains `t` exactly when `t` is in
`[FIRST, LAST)` and `(commandId, t)` is a key of the subscription table, and is empty
when `commandId` has no subscription. The function reads the registry only. -/
theorem getTypes_spec (cm : CommandMapping) (FIRST LAST : Int) (commandId : Nat)
    (types : List CommandType) (fuel : Nat) (hrange : FIRST ≤ LAST)
    (hfuel : (LAST - FIRST).toNat + 1 ≤ fuel) :
    ∃ l, getTypes fuel cm FIRST LAST commandId types = some l ∧
      l.Pairwise (fun t1 t2 => t1.mType < t2.mType) ∧
      l.Nodup ∧
      (∀ t, t ∈ l ↔ (FIRST ≤ t.mType ∧ t.mType < LAST ∧
        mapFind cm.mCommandMapping (commandId, t) ≠ none)) ∧
      ((∀ t, mapFind cm.mCommandMapping (commandId, t) = none) → l = []) := by
  have hrun := getTypesLoop_spec cm LAST commandId (LAST - FIRST).toNat FIRST [] fuel
    (by omega) hfuel
  have hsorted : ((typesFrom FIRST (LAST - FIRST).toNat).filter
      (subscribed cm commandId)).Pairwise (fun t1 t2 => t1.mType < t2.mType) :=
    (pairwise_typesFrom _ FIRST).filter _
  have hmem : ∀ t, t ∈ (typesFrom FIRST (LAST - FIRST).toNat).filter
        (subscribed cm commandId) ↔
      (FIRST ≤ t.mType ∧ t.mType < LAST ∧
        mapFind cm.mCommandMapping (commandId, t) ≠ none) := by
    intro t
    rw [List.mem_filter, mem_typesFrom]
    have hs : subscribed cm commandId t = true ↔
        mapFind cm.mCommandMapping (commandId, t) ≠ none := by
      unfold subscribed
      cases mapFind cm.mCommandMapping (commandId, t) <;> simp
    rw [hs]
    constructor
    · rintro ⟨⟨h1, h2⟩, h3⟩
      exact ⟨h1, by omega, h3⟩
    · rintro ⟨h1, h2, h3⟩
      exact ⟨⟨h1, by omega⟩, h3⟩
  refine ⟨(typesFrom FIRST (LAST - FIRST).toNat).filter (subscribed cm commandId),
    ?_, hsorted, ?_, hmem, ?_⟩
  · simpa [getTypes, vecClear] using hrun
  · exact hsorted.imp (fun h heq => by rw [heq] at h; omega)
  · intro hnone
    apply List.eq_nil_iff_forall_not_mem.mpr
    intro t ht
    exact ((hmem t).mp ht).2.2 (hnone t)

/-- Witness of C10: types 0 and 1 lie in `[0, 2)`; command 42 is subscribed for both and
the output container held a stale element. -/
theorem getTypes_spec_witness :
    ∃ l, getTypes 3
        { mCommandMapping :=
            [((42, { mType := 0 }),
                some { addr := 1, application := some { name := "X", sessionID := 7 } }),
             ((42, { mType := 1 }),
                some { addr := 2, application := none }),
             ((43, { mType := 0 }),
                some { addr := 1, application := some { name := "X", sessionID := 7 } })],
          mRequestsPerCommand := [(42, 0), (43, 0)] }
        0 2 42 [{ mType := 1 }] = some l ∧
      (∀ t, t ∈ l ↔ ((0 : Int) ≤ t.mType ∧ t.mType < 2 ∧
        mapFind
          [((42, { mType := 0 }),
              some { addr := 1, application := some { name := "X", sessionID := 7 } }),
           ((42, { mType := 1 }),
              (some { addr := 2, application := none } : ItemPtr)),
           ((43, { mType := 0 }),
              some { addr := 1, application := some { name := "X", sessionID := 7 } })]
          (42, t) ≠ none)) := by
  obtain ⟨l, h1, _, _, h4, _⟩ := getTypes_spec
    { mCommandMapping :=
        [((42, { mType := 0 }),
            some { addr := 1, application := some { name := "X", sessionID := 7 } }),
         ((42, { mType := 1 }),
            some { addr := 2, application := none }),
         ((43, { mType := 0 }),
            some { addr := 1, application := some { name := "X", sessionID := 7 } })],
      mRequestsPerCommand := [(42, 0), (43, 0)] }
    0 2 42 [{ mType := 1 }] 3 (by decide) (by decide)
  exact ⟨l, h1, h4⟩

/-! ## Lookup -/

/-- Claim C11: `findRegistryItemAssignedToCommand(commandId, type)` returns the item `r`
exactly when the subscription table maps the key to `r` and `r` has an application; it
returns not-found when the key is absent, when the stored item has no application and
when the stored pointer is null. The function is a const member: it yields a pointer
and no registry. -/
theorem find_iff_entry_with_application (cm : CommandMapping) (commandId : Nat)
    (type : CommandType) :
    (∀ r : RegistryItem,
      findRegistryItemAssignedToCommand cm commandId type = some r ↔
        (mapFind cm.mCommandMapping (commandId, type) = some (some r) ∧
          r.application ≠ none)) ∧
    (mapFind cm.mCommandMapping (commandId, type) = none →
      findRegistryItemAssignedToCommand cm commandId type = none) ∧
    (∀ r : RegistryItem, mapFind cm.mCommandMapping (commandId, type) = some (some r) →
      r.application = none →
      findRegistryItemAssignedToCommand cm commandId type = none) ∧
    (mapFind cm.mCommandMapping (commandId, type) = some none →
      findRegistryItemAssignedToCommand cm commandId type = none) := by
  unfold findRegistryItemAssignedToCommand
  refine ⟨?_, ?_, ?_, ?_⟩
  · intro r
    cases hf : mapFind cm.mCommandMapping (commandId, type) with
    | none => simp
    | some p =>
      cases p with
      | none => simp
      | some item =>
        cases happ : item.application with
        | none =>
          simp only [happ, Option.some.injEq, ne_eq, false_iff, not_and, not_not,
            reduceCtorEq]
          intro h
          rw [← h]
          exact happ
        | some a =>
          simp only [happ, Option.some.injEq, ne_eq]
          constructor
          · intro h
            subst h
            exact ⟨rfl, by rw [happ]; simp⟩
          · intro h
            exact h.1
  · intro h
    rw [h]
  · intro r h happ
    rw [h]
    simp only [happ]
  · intro h
    rw [h]

/-- Witness of C11: `(42, 0)` is stored for an item without application, so the lookup
returns not-found although the key is present. -/
theorem find_iff_entry_with_application_witness :
    findRegistryItemAssignedToCommand
      { mCommandMapping := [((42, { mType := 0 }), some { addr := 4, application := none })],
        mRequestsPerCommand := [(42, 0)] }
      42 { mType := 0 } = none :=
  (find_iff_entry_with_application
    { mCommandMapping := [((42, { mType := 0 }), some { addr := 4, application := none })],
      mRequestsPerCommand := [(42, 0)] }
    42 { mType := 0 }).2.2.1 { addr := 4, application := none } (by decide) rfl

/-! ## Increment and decrement -/

theorem increment_counter_self (cm : CommandMapping) (cmdId n : Nat)
    (h : mapFind cm.mRequestsPerCommand cmdId = some n) :
    mapFind (incrementUnrespondedRequestCount cm cmdId).1.mRequestsPerCommand cmdId =
      some ((n + 1) % UINT_MOD) := by
  rw [increment_of_entry cm cmdId n h]
  exact mapFind_reinsert _ _ _

theorem increment_counter_ne (cm : CommandMapping) (cmdId c : Nat) (hc : cmdId ≠ c) :
    mapFind (incrementUnrespondedRequestCount cm cmdId).1.mRequestsPerCommand c =
      mapFind cm.mRequestsPerCommand c := by
  cases hn : mapFind cm.mRequestsPerCommand cmdId with
  | none => rw [increment_of_absent cm cmdId hn]
  | some n =>
    rw [increment_of_entry cm cmdId n hn]
    exact mapFind_reinsert_ne _ _ _ _ hc

theorem getCount_of_absent (cm : CommandMapping) (cmdId : Nat)
    (h : mapFind cm.mRequestsPerCommand cmdId = none) :
    getUnrespondedRequestCount cm cmdId = 0 := by
  simp [getUnrespondedRequestCount, h]

/-- Claim C12: when the counter table has an entry for `cmdId` with value
`n < 2 ^ 32 - 1`, `incrementUnrespondedRequestCount(cmdId)` returns `n + 1` and the count
read afterwards is `n + 1`; without an entry it returns 0 and the whole state is the one
it was given, so nothing is inserted and the count read is still 0. -/
theorem increment_spec (cm : CommandMapping) (cmdId : Nat) :
    (∀ n, mapFind cm.mRequestsPerCommand cmdId = some n → n < 2 ^ 32 - 1 →
      (incrementUnrespondedRequestCount cm cmdId).2 = n + 1 ∧
      getUnrespondedRequestCount (incrementUnrespondedRequestCount cm cmdId).1 cmdId
        = n + 1) ∧
    (mapFind cm.mRequestsPerCommand cmdId = none →
      incrementUnrespondedRequestCount cm cmdId = (cm, 0) ∧
      mapFind (incrementUnrespondedRequestCount cm cmdId).1.mRequestsPerCommand cmdId
        = none ∧
      getUnrespondedRequestCount (incrementUnrespondedRequestCount cm cmdId).1 cmdId = 0) := by
  constructor
  · intro n h hlt
    have hval : (n + 1) % UINT_MOD = n + 1 := by
      unfold UINT_MOD
      omega
    constructor
    · rw [increment_of_entry cm cmdId n h, hval]
    · apply getCount_of_entry
      rw [increment_counter_self cm cmdId n h, hval]
  · intro h
    rw [increment_of_absent cm cmdId h]
    exact ⟨rfl, h, getCount_of_absent cm cmdId h⟩

/-- Witness of C12: command 42 has count 3 and is incremented. -/
theorem increment_spec_witness :
    (incrementUnrespondedRequestCount
      { mCommandMapping := [], mRequestsPerCommand := [(42, 3)] } 42).2 = 3 + 1 :=
  ((increment_spec { mCommandMapping := [], mRequestsPerCommand := [(42, 3)] } 42).1 3
    (by decide) (by decide)).1

/-- Claim C13: when the counter table has an entry for `cmdId` with value `n ≥ 1` (an
unsigned 32-bit value), `decrementUnrespondedRequestCount(cmdId)` returns `n - 1` and
stores `n - 1`; without an entry it returns 0 and the whole state is the one it was
given. On an existing entry, a decrement after an increment restores the count. -/
theorem decrement_spec (cm : CommandMapping) (cmdId : Nat) :
    (∀ n, mapFind cm.mRequestsPerCommand cmdId = some n → 1 ≤ n → n < 2 ^ 32 →
      (decrementUnrespondedRequestCount cm cmdId).2 = n - 1 ∧
      mapFind (decrementUnrespondedRequestCount cm cmdId).1.mRequestsPerCommand cmdId
        = some (n - 1)) ∧
    (mapFind cm.mRequestsPerCommand cmdId = none →
      decrementUnrespondedRequestCount cm cmdId = (cm, 0)) ∧
    (∀ n, mapFind cm.mRequestsPerCommand cmdId = some n → n < 2 ^ 32 →
      getUnrespondedRequestCount
        (decrementUnrespondedRequestCount
          (incrementUnrespondedRequestCount cm cmdId).1 cmdId).1 cmdId
        = getUnrespondedRequestCount cm cmdId) := by
  refine ⟨?_, ?_, ?_⟩
  · intro n h hpos hlt
    have hval : (n + (UINT_MOD - 1)) % UINT_MOD = n - 1 := by
      unfold UINT_MOD
      omega
    constructor
    · rw [decrement_of_entry cm cmdId n h, hval]
    · rw [decrement_counter_self, h, Option.map_some', hval]
  · intro h
    exact decrement_of_absent cm cmdId h
  · intro n h hlt
    have hval : ((n + 1) % UINT_MOD + (UINT_MOD - 1)) % UINT_MOD = n := by
      unfold UINT_MOD
      omega
    rw [getCount_of_entry cm cmdId n h]
    apply getCount_of_entry
    rw [decrement_counter_self, increment_counter_self cm cmdId n h, Option.map_some', hval]

/-- Witness of C13: command 42 has count 3 and is decremented. -/
theorem decrement_spec_witness :
    (decrementUnrespondedRequestCount
      { mCommandMapping := [], mRequestsPerCommand := [(42, 3)] } 42).2 = 3 - 1 :=
  ((decrement_spec { mCommandMapping := [], mRequestsPerCommand := [(42, 3)] } 42).1 3
    (by decide) (by decide) (by decide)).1

/-! ## Successor of a command type -/

/-- Claim C14: pre-increment yields `LAST` on `LAST` and the type of the next ordinal on
every other type, so a type in `[FIRST, LAST]` stays in `[FIRST, LAST]`; post-increment
returns the value held before and leaves the object as pre-increment leaves it. -/
theorem preInc_saturates (FIRST LAST : Int) (t : CommandType) :
    (t.mType = LAST → CommandType.preInc LAST t = { mType := LAST }) ∧
    (t.mType ≠ LAST → CommandType.preInc LAST t = { mType := t.mType + 1 }) ∧
    (FIRST ≤ t.mType → t.mType ≤ LAST →
      FIRST ≤ (CommandType.preInc LAST t).mType ∧
      (CommandType.preInc LAST t).mType ≤ LAST) ∧
    (CommandType.postInc LAST t).1 = t ∧
    (CommandType.postInc LAST t).2 = CommandType.preInc LAST t := by
  obtain ⟨x⟩ := t
  refine ⟨?_, ?_, ?_, rfl, rfl⟩
  · intro h
    simp only at h
    simp [CommandType.preInc, h]
  · intro h
    simp only at h
    simp [CommandType.preInc, h]
  · intro h1 h2
    simp only at h1 h2
    by_cases hx : x = LAST
    · simp only [CommandType.preInc, hx, ne_eq, not_true_eq_false, if_false]
      omega
    · simp only [CommandType.preInc, ne_eq, hx, not_false_eq_true, if_true]
      omega

/-- Witness of C14: with `FIRST = 0` and `LAST = 2`, the successor of type 1 is type 2
and lies in `[0, 2]`. -/
theorem preInc_saturates_witness :
    (0 : Int) ≤ (CommandType.preInc 2 { mType := 1 }).mType ∧
    (CommandType.preInc 2 { mType := 1 }).mType ≤ 2 :=
  (preInc_saturates 0 2 { mType := 1 }).2.2.1 (by decide) (by decide)

/-! ## Counter entries persist -/

theorem mem_of_mapFind {κ ν : Type} [DecidableEq κ] (m : List (κ × ν)) (k : κ) (v : ν)
    (h : mapFind m k = some v) : (k, v) ∈ m := by
  induction m with
  | nil => simp [mapFind] at h
  | cons x rest ih =>
    obtain ⟨xk, xv⟩ := x
    simp only [mapFind] at h
    split at h
    · rename_i hk
      cases h
      subst hk
      exact List.mem_cons_self _ _
    · exact List.mem_cons_of_mem _ (ih h)

theorem mem_mapInsert {κ ν : Type} [DecidableEq κ] (lt : κ → κ → Bool) (m : List (κ × ν))
    (e x : κ × ν) (h : x ∈ mapInsert lt m e) : x = e ∨ x ∈ m := by
  unfold mapInsert at h
  split at h
  · exact Or.inr h
  · exact (mem_orderedPut lt e x m).mp h

theorem decrement_counter_present (cm : CommandMapping) (cmdId c : Nat)
    (h : mapFind cm.mRequestsPerCommand c ≠ none) :
    mapFind (decrementUnrespondedRequestCount cm cmdId).1.mRequestsPerCommand c ≠ none := by
  by_cases hc : cmdId = c
  · subst hc
    rw [decrement_counter_self]
    cases hf : mapFind cm.mRequestsPerCommand cmdId with
    | none => exact absurd hf h
    | some n => simp
  · rw [decrement_counter_ne cm cmdId c hc]
    exact h

theorem increment_counter_present (cm : CommandMapping) (cmdId c : Nat)
    (h : mapFind cm.mRequestsPerCommand c ≠ none) :
    mapFind (incrementUnrespondedRequestCount cm cmdId).1.mRequestsPerCommand c ≠ none := by
  by_cases hc : cmdId = c
  · subst hc
    cases hf : mapFind cm.mRequestsPerCommand cmdId with
    | none => exact absurd hf h
    | some n =>
      rw [increment_counter_self cm cmdId n hf]
      simp
  · rw [increment_counter_ne cm cmdId c hc]
    exact h

theorem cover_step (infoLogged : Bool) (cm cm1 : CommandMapping) (op : Op)
    (h : step infoLogged cm op = .ok cm1) (hc : CountersCover cm) : CountersCover cm1 := by
  cases op with
  | addCommand commandId type app =>
    simp only [step] at h
    cases app with
    | none =>
      rw [← Except.ok.inj h]
      exact hc
    | some item =>
      rw [addCommand_ok_inv infoLogged cm cm1 commandId type item h]
      intro e he
      have hself := mapFind_mapInsert_self cmdIdLt cm.mRequestsPerCommand
        (commandId, getUnrespondedRequestCount cm commandId)
      by_cases hk : commandId = e.1.1
      · show mapFind (mapInsert cmdIdLt cm.mRequestsPerCommand
          (commandId, getUnrespondedRequestCount cm commandId)) e.1.1 ≠ none
        rw [← hk]
        intro hnone
        rw [hnone] at hself
        cases hself
      · show mapFind (mapInsert cmdIdLt cm.mRequestsPerCommand
          (commandId, getUnrespondedRequestCount cm commandId)) e.1.1 ≠ none
        rw [mapFind_mapInsert_ne cmdIdLt cm.mRequestsPerCommand _ e.1.1 hk]
        rcases mem_mapInsert _ _ _ _ he with h1 | h1
        · exact absurd (by rw [h1]) hk
        · exact hc e h1
  | removeCommand commandId type =>
    simp only [step] at h
    rw [← Except.ok.inj h]
    intro e he
    unfold removeCommand at he ⊢
    rw [decrement_mCommandMapping] at he
    exact decrement_counter_present _ _ _ (hc e (List.mem_filter.mp he).1)
  | removeItem app =>
    simp only [step] at h
    rw [removeItem_ok_inv cm cm1 app h]
    exact hc
  | increment cmdId =>
    simp only [step] at h
    rw [← Except.ok.inj h]
    intro e he
    rw [increment_mCommandMapping] at he
    exact increment_counter_present _ _ _ (hc e he)
  | decrement cmdId =>
    simp only [step] at h
    rw [← Except.ok.inj h]
    intro e he
    rw [decrement_mCommandMapping] at he
    exact decrement_counter_present _ _ _ (hc e he)

theorem reachable_cover (cm : CommandMapping) (h : Reachable cm) : CountersCover cm := by
  induction h with
  | empty => simp [CountersCover, CommandMapping.empty]
  | call infoLogged cm cm1 op _ hs ih => exact cover_step infoLogged cm cm1 op hs ih
  | survived cm cm1 app _ _ hsv ih =>
    intro e he
    have hbefore := ih e (hsv.1.subset he)
    have hsame := hsv.2 e.1.1
    intro hnone
    rw [hnone] at hsame
    cases hf : mapFind cm.mRequestsPerCommand e.1.1 with
    | none => exact hbefore hf
    | some n =>
      rw [hf] at hsame
      cases hsame

/-- Claim C15: in every state reachable from the empty registry by `addCommand`,
`removeCommand`, `removeItem`, increment and decrement calls, every command id that
occurs in a key of the subscription table has an entry in the counter table. -/
theorem reachable_counters_cover (cm : CommandMapping) (hreach : Reachable cm) :
    (∀ e ∈ cm.mCommandMapping, mapFind cm.mRequestsPerCommand e.1.1 ≠ none) ∧
    (∀ (commandId : Nat) (type : CommandType),
      mapFind cm.mCommandMapping (commandId, type) ≠ none →
      mapFind cm.mRequestsPerCommand commandId ≠ none) := by
  have hcover : CountersCover cm := reachable_cover cm hreach
  refine ⟨hcover, ?_⟩
  intro commandId type hkey
  cases hf : mapFind cm.mCommandMapping (commandId, type) with
  | none => exact absurd hf hkey
  | some p => exact hcover ((commandId, type), p) (mem_of_mapFind _ _ _ hf)

/-- Witness of C15: after subscribing `(42, 0)`, incrementing 42, subscribing `(7, 1)`
and removing `(42, 0)`, command 7 is still subscribed and has a counter entry. -/
theorem reachable_counters_cover_witness :
    mapFind
      ({ mCommandMapping :=
          [((7, { mType := 1 }),
              some { addr := 1, application := some { name := "X", sessionID := 7 } })],
         mRequestsPerCommand := [(7, 0), (42, 0)] } : CommandMapping).mRequestsPerCommand 7
      ≠ none :=
  (reachable_counters_cover
    { mCommandMapping :=
        [((7, { mType := 1 }),
            some { addr := 1, application := some { name := "X", sessionID := 7 } })],
      mRequestsPerCommand := [(7, 0), (42, 0)] }
    (reachable_of_run true
      [Op.addCommand 42 { mType := 0 }
          (some { addr := 1, application := some { name := "X", sessionID := 7 } }),
       Op.increment 42,
       Op.addCommand 7 { mType := 1 }
          (some { addr := 1, application := some { name := "X", sessionID := 7 } }),
       Op.removeCommand 42 { mType := 0 }]
      CommandMapping.empty _ Reachable.empty (by decide))).2 7 { mType := 1 } (by decide)

/-! ## Counter isolation -/

/-- Claim C18: for command ids `c ≠ c1`, none of `addCommand(c, ...)`,
`removeCommand(c, ...)`, `incrementUnrespondedRequestCount(c)` and
`decrementUnrespondedRequestCount(c)` changes the presence or the value of the counter
entry of `c1`. For `addCommand` this is said of every call that returns, and the call
does return when the log statement does not evaluate its message or the item is null or
has an application. Increment and decrement leave the subscription table as it is, and
`getUnrespondedRequestCount` is a const member that yields a number and no registry. -/
theorem counter_isolation (cm : CommandMapping) (c c1 : Nat) (hne : c ≠ c1)
    (type : CommandType) (app : ItemPtr) :
    (∀ (infoLogged : Bool) (cm1 : CommandMapping),
      addCommand infoLogged cm c type app = .ok cm1 →
      mapFind cm1.mRequestsPerCommand c1 = mapFind cm.mRequestsPerCommand c1) ∧
    (∀ infoLogged : Bool,
      (infoLogged = false ∨ ∀ item, app = some item → item.application ≠ none) →
      ∃ cm1, addCommand infoLogged cm c type app = .ok cm1) ∧
    mapFind (removeCommand cm c type).mRequestsPerCommand c1
      = mapFind cm.mRequestsPerCommand c1 ∧
    mapFind (incrementUnrespondedRequestCount cm c).1.mRequestsPerCommand c1
      = mapFind cm.mRequestsPerCommand c1 ∧
    mapFind (decrementUnrespondedRequestCount cm c).1.mRequestsPerCommand c1
      = mapFind cm.mRequestsPerCommand c1 ∧
    (∀ cmdId, (incrementUnrespondedRequestCount cm cmdId).1.mCommandMapping
      = cm.mCommandMapping) ∧
    (∀ cmdId, (decrementUnrespondedRequestCount cm cmdId).1.mCommandMapping
      = cm.mCommandMapping) := by
  refine ⟨?_, ?_, ?_, increment_counter_ne cm c c1 hne, decrement_counter_ne cm c c1 hne,
    increment_mCommandMapping cm, decrement_mCommandMapping cm⟩
  · intro infoLogged cm1 h
    cases app with
    | none => rw [← Except.ok.inj h]
    | some item =>
      rw [addCommand_ok_inv infoLogged cm cm1 c type item h]
      exact mapFind_mapInsert_ne cmdIdLt cm.mRequestsPerCommand
        (c, getUnrespondedRequestCount cm c) c1 hne
  · intro infoLogged h
    cases app with
    | none => exact ⟨cm, rfl⟩
    | some item =>
      refine ⟨_, addCommand_ok infoLogged cm c type item ?_⟩
      rcases h with h | h
      · exact Or.inl h
      · exact Or.inr (h item rfl)
  · unfold removeCommand
    rw [decrement_counter_ne _ c c1 hne]

/-- Witness of C18: `addCommand(42, 0, X)` returns and leaves the counter of 43 at 5. -/
theorem counter_isolation_witness :
    ∃ cm1, addCommand true
        { mCommandMapping := [], mRequestsPerCommand := [(42, 0), (43, 5)] }
        42 { mType := 0 }
        (some { addr := 1, application := some { name := "X", sessionID := 7 } })
      = .ok cm1 :=
  (counter_isolation { mCommandMapping := [], mRequestsPerCommand := [(42, 0), (43, 5)] }
    42 43 (by decide) { mType := 0 }
    (some { addr := 1, application := some { name := "X", sessionID := 7 } })).2.1 true
    (Or.inr (by
      intro item h
      cases h
      decide))

/-! ## No null item in a reachable state -/

/-- Claim C19: in every state reachable from the empty registry by the public
operations no entry of the subscription table stores a null item; hence no lookup finds
a key with a null stored pointer (the "RegistryItem not found!" branch is not taken),
and no call of `removeItem` ends in the read of `getApplication()` through a null stored
pointer. -/
theorem reachable_no_null_item (cm : CommandMapping) (hreach : Reachable cm) :
    NoNullItem cm.mCommandMapping ∧
    (∀ (commandId : Nat) (type : CommandType),
      mapFind cm.mCommandMapping (commandId, type) ≠ some none) ∧
    (∀ app : ItemPtr, removeItem cm app ≠ .error .nullRegistryItem) := by
  have hnn := reachable_noNull cm hreach
  refine ⟨hnn, ?_, ?_⟩
  · intro commandId type h
    exact hnn ((commandId, type), none) (mem_of_mapFind _ _ _ h) rfl
  · intro app
    cases app with
    | none =>
      intro h
      cases h
    | some item =>
      cases happ : item.application with
      | none =>
        simp only [removeItem, happ]
        intro h
        cases h
      | some a =>
        simp only [removeItem, happ]
        exact removeItemLoop_no_null_fault a.sessionID cm.mCommandMapping cm hnn

/-- Witness of C19: the state after `addCommand(42, 0, X)`, a rejected
`addCommand(42, 1, null)` and `addCommand(43, 0, Y)` stores no null item. -/
theorem reachable_no_null_item_witness :
    NoNullItem
      ({ mCommandMapping :=
          [((42, { mType := 0 }),
              some { addr := 1, application := some { name := "X", sessionID := 7 } }),
           ((43, { mType := 0 }),
              some { addr := 2, application := some { name := "Y", sessionID := 9 } })],
         mRequestsPerCommand := [(42, 0), (43, 0)] } : CommandMapping).mCommandMapping :=
  (reachable_no_null_item
    { mCommandMapping :=
        [((42, { mType := 0 }),
            some { addr := 1, application := some { name := "X", sessionID := 7 } }),
         ((43, { mType := 0 }),
            some { addr := 2, application := some { name := "Y", sessionID := 9 } })],
      mRequestsPerCommand := [(42, 0), (43, 0)] }
    (reachable_of_run true
      [Op.addCommand 42 { mType := 0 }
          (some { addr := 1, application := some { name := "X", sessionID := 7 } }),
       Op.addCommand 42 { mType := 1 } none,
       Op.addCommand 43 { mType := 0 }
          (some { addr := 2, application := some { name := "Y", sessionID := 9 } })]
      CommandMapping.empty _ Reachable.empty (by decide))).1

/-! ## A subscription persists -/

theorem find_some_entry (cm : CommandMapping) (commandId : Nat) (type : CommandType)
    (app : RegistryItem)
    (h : findRegistryItemAssignedToCommand cm commandId type = some app) :
    mapFind cm.mCommandMapping (commandId, type) = some (some app) ∧
      app.application ≠ none := by
  unfold findRegistryItemAssignedToCommand at h
  cases hf : mapFind cm.mCommandMapping (commandId, type) with
  | none => simp [hf] at h
  | some p =>
    cases p with
    | none => simp [hf] at h
    | some item =>
      cases happ : item.application with
      | none => simp [hf, happ] at h
      | some a =>
        simp only [hf, happ, Option.some.injEq] at h
        subst h
        exact ⟨rfl, by rw [happ]; simp⟩

theorem find_of_entry (cm : CommandMapping) (commandId : Nat) (type : CommandType)
    (app : RegistryItem)
    (h : mapFind cm.mCommandMapping (commandId, type) = some (some app))
    (happ : app.application ≠ none) :
    findRegistryItemAssignedToCommand cm commandId type = some app := by
  unfold findRegistryItemAssignedToCommand
  rw [h]
  cases ha : app.application with
  | none => exact absurd ha happ
  | some a => simp [ha]

/-- The lookup of `k` that returned `app` still returns `app` after every `addCommand`
that returns, after `removeCommand` on another key, after an increment or a decrement,
and after every `removeItem` that returns. -/
theorem subscription_kept (cm : CommandMapping) (commandId : Nat) (type : CommandType)
    (app : RegistryItem)
    (hfind : findRegistryItemAssignedToCommand cm commandId type = some app) :
    (∀ (infoLogged : Bool) (c : Nat) (t : CommandType) (p : ItemPtr) (cm1 : CommandMapping),
      addCommand infoLogged cm c t p = .ok cm1 →
      findRegistryItemAssignedToCommand cm1 commandId type = some app) ∧
    (∀ (c : Nat) (t : CommandType), (c, t) ≠ (commandId, type) →
      findRegistryItemAssignedToCommand (removeCommand cm c t) commandId type = some app) ∧
    (∀ (p : ItemPtr) (cm1 : CommandMapping), removeItem cm p = .ok cm1 →
      findRegistryItemAssignedToCommand cm1 commandId type = some app) ∧
    (∀ c : Nat,
      findRegistryItemAssignedToCommand (incrementUnrespondedRequestCount cm c).1
        commandId type = some app ∧
      findRegistryItemAssignedToCommand (decrementUnrespondedRequestCount cm c).1
        commandId type = some app) := by
  obtain ⟨hentry, happ⟩ := find_some_entry cm commandId type app hfind
  refine ⟨?_, ?_, ?_, ?_⟩
  · intro infoLogged c t p cm1 h
    cases p with
    | none =>
      rw [← Except.ok.inj h]
      exact hfind
    | some item =>
      apply find_of_entry _ _ _ _ _ happ
      rw [addCommand_ok_inv infoLogged cm cm1 c t item h]
      show mapFind (mapInsert CommandKey.lt cm.mCommandMapping ((c, t), some item))
        (commandId, type) = some (some app)
      by_cases hk : (c, t) = (commandId, type)
      · rw [hk, mapInsert_of_present CommandKey.lt cm.mCommandMapping
          ((commandId, type), some item) (some app) hentry]
        exact hentry
      · rw [mapFind_mapInsert_ne CommandKey.lt cm.mCommandMapping ((c, t), some item)
          (commandId, type) hk]
        exact hentry
  · intro c t hk
    apply find_of_entry _ _ _ _ _ happ
    unfold removeCommand
    rw [decrement_mCommandMapping, mapFind_mapErase_ne _ _ _ hk]
    exact hentry
  · intro p cm1 h
    rw [removeItem_ok_inv cm cm1 p h]
    exact hfind
  · intro c
    constructor
    · apply find_of_entry _ _ _ _ _ happ
      rw [increment_mCommandMapping]
      exact hentry
    · apply find_of_entry _ _ _ _ _ happ
      rw [decrement_mCommandMapping]
      exact hentry

/-- Claim C16, the input on which the code breaks it: `(42, 0)` is subscribed by X of
session 7 and `(43, 0)` by Y of session 9, so the lookup of `(42, 0)` returns X, and
`removeItem` is called with an item of session 9. On the entry of Y the loop erases the
node its iterator points to and then uses that node: the call ends in a fault, where
the claim has the lookup of `(42, 0)` return X after it. The same state breaks the
`addCommand` case when the item has no application and the log statement of line 30
evaluates its message. -/
theorem subscription_persists_fault :
    run true CommandMapping.empty
      [Op.addCommand 42 { mType := 0 }
        (some { addr := 1, application := some { name := "X", sessionID := 7 } }),
       Op.addCommand 43 { mType := 0 }
        (some { addr := 2, application := some { name := "Y", sessionID := 9 } })]
      = .ok
        { mCommandMapping :=
            [((42, { mType := 0 }),
                some { addr := 1, application := some { name := "X", sessionID := 7 } }),
             ((43, { mType := 0 }),
                some { addr := 2, application := some { name := "Y", sessionID := 9 } })],
          mRequestsPerCommand := [(42, 0), (43, 0)] } ∧
    findRegistryItemAssignedToCommand
        { mCommandMapping :=
            [((42, { mType := 0 }),
                some { addr := 1, application := some { name := "X", sessionID := 7 } }),
             ((43, { mType := 0 }),
                some { addr := 2, application := some { name := "Y", sessionID := 9 } })],
          mRequestsPerCommand := [(42, 0), (43, 0)] }
        42 { mType := 0 }
      = some { addr := 1, application := some { name := "X", sessionID := 7 } } ∧
    removeItem
        { mCommandMapping :=
            [((42, { mType := 0 }),
                some { addr := 1, application := some { name := "X", sessionID := 7 } }),
             ((43, { mType := 0 }),
                some { addr := 2, application := some { name := "Y", sessionID := 9 } })],
          mRequestsPerCommand := [(42, 0), (43, 0)] }
        (some { addr := 3, application := some { name := "Y", sessionID := 9 } })
      = .error .erasedNode ∧
    addCommand true
        { mCommandMapping :=
            [((42, { mType := 0 }),
                some { addr := 1, application := some { name := "X", sessionID := 7 } }),
             ((43, { mType := 0 }),
                some { addr := 2, application := some { name := "Y", sessionID := 9 } })],
          mRequestsPerCommand := [(42, 0), (43, 0)] }
        44 { mType := 0 } (some { addr := 4, application := none })
      = .error .nullApplication := by
  refine ⟨by decide, by decide, by decide, by decide⟩

/-! ## Termination of the enumeration -/

theorem iterate_preInc (LAST : Int) (k : Nat) :
    ∀ x : Int, x + k ≤ LAST →
      Nat.iterate (CommandType.preInc LAST) k { mType := x } = { mType := x + k } := by
  induction k with
  | zero =>
    intro x _
    simp
  | succ k ih =>
    intro x hx
    have hne : x ≠ LAST := by omega
    have hstep : CommandType.preInc LAST { mType := x } = { mType := x + 1 } := by
      simp [CommandType.preInc, hne]
    rw [Function.iterate_succ_apply, hstep, ih (x + 1) (by omega)]
    congr 1
    push_cast
    omega

theorem getTypesLoop_out_of_fuel (cm : CommandMapping) (LAST : Int) (commandId : Nat)
    (fuel : Nat) :
    ∀ (d : Nat) (x : Int) (types : List CommandType),
      x + d = LAST → fuel ≤ d →
      getTypesLoop cm LAST commandId fuel { mType := x } types = none := by
  induction fuel with
  | zero =>
    intro d x types _ _
    rfl
  | succ f ih =>
    intro d x types hx hfuel
    obtain ⟨d1, rfl⟩ : ∃ d1, d = d1 + 1 := ⟨d - 1, by omega⟩
    have hne : x ≠ LAST := by omega
    have hnext : (CommandType.postInc LAST { mType := x }).2 = { mType := x + 1 } := by
      simp [CommandType.postInc, CommandType.preInc, hne]
    simp only [getTypesLoop, ne_eq, hne, not_false_eq_true, if_true, hnext]
    exact ih d1 (x + 1) _ (by omega) (by omega)

theorem length_typesFrom (d : Nat) : ∀ x : Int, (typesFrom x d).length = d := by
  induction d with
  | zero =>
    intro x
    rfl
  | succ d ih =>
    intro x
    simp [typesFrom, ih (x + 1)]

theorem getTypes_eq (cm : CommandMapping) (FIRST LAST : Int) (commandId : Nat)
    (types : List CommandType) (fuel : Nat) (hrange : FIRST ≤ LAST)
    (hfuel : (LAST - FIRST).toNat + 1 ≤ fuel) :
    getTypes fuel cm FIRST LAST commandId types =
      some ((typesFrom FIRST (LAST - FIRST).toNat).filter (subscribed cm commandId)) := by
  have hrun := getTypesLoop_spec cm LAST commandId (LAST - FIRST).toNat FIRST [] fuel
    (by omega) hfuel
  simpa [getTypes, vecClear] using hrun

/-- Claim C17: with `FIRST ≤ LAST`, the successor applied `LAST - FIRST` times to `FIRST`
gives `LAST` and no fewer applications do; `getTypes` returns as soon as its fuel allows
`LAST - FIRST + 1` loop tests and not before, so the body, which makes one table lookup,
runs exactly `LAST - FIRST` times, and the result has at most that many elements. -/
theorem getTypes_terminates (cm : CommandMapping) (FIRST LAST : Int) (commandId : Nat)
    (types : List CommandType) (hrange : FIRST ≤ LAST) :
    Nat.iterate (CommandType.preInc LAST) (LAST - FIRST).toNat { mType := FIRST }
      = { mType := LAST } ∧
    (∀ k, k < (LAST - FIRST).toNat →
      Nat.iterate (CommandType.preInc LAST) k { mType := FIRST } ≠ { mType := LAST }) ∧
    (∀ fuel, fuel ≤ (LAST - FIRST).toNat →
      getTypes fuel cm FIRST LAST commandId types = none) ∧
    (∀ fuel, (LAST - FIRST).toNat + 1 ≤ fuel →
      ∃ l, getTypes fuel cm FIRST LAST commandId types = some l ∧
        l.length ≤ (LAST - FIRST).toNat) := by
  refine ⟨?_, ?_, ?_, ?_⟩
  · rw [iterate_preInc LAST _ FIRST (by omega)]
    congr 1
    omega
  · intro k hk
    rw [iterate_preInc LAST k FIRST (by omega)]
    intro h
    have := congrArg CommandType.mType h
    simp only at this
    omega
  · intro fuel hfuel
    simp only [getTypes, vecClear]
    exact getTypesLoop_out_of_fuel cm LAST commandId fuel (LAST - FIRST).toNat FIRST []
      (by omega) hfuel
  · intro fuel hfuel
    refine ⟨_, getTypes_eq cm FIRST LAST commandId types fuel hrange hfuel, ?_⟩
    calc ((typesFrom FIRST (LAST - FIRST).toNat).filter (subscribed cm commandId)).length
        ≤ (typesFrom FIRST (LAST - FIRST).toNat).length := List.length_filter_le _ _
      _ = (LAST - FIRST).toNat := length_typesFrom _ FIRST

/-- Witness of C17: with `FIRST = 0` and `LAST = 2`, two loop tests are not enough and
three are. -/
theorem getTypes_terminates_witness :
    getTypes 2
        { mCommandMapping :=
            [((42, { mType := 0 }),
                some { addr := 1, application := some { name := "X", sessionID := 7 } })],
          mRequestsPerCommand := [(42, 0)] }
        0 2 42 [] = none ∧
    ∃ l, getTypes 3
        { mCommandMapping :=
            [((42, { mType := 0 }),
                some { addr := 1, application := some { name := "X", sessionID := 7 } })],
          mRequestsPerCommand := [(42, 0)] }
        0 2 42 [] = some l ∧ l.length ≤ 2 :=
  ⟨(getTypes_terminates
      { mCommandMapping :=
          [((42, { mType := 0 }),
              some { addr := 1, application := some { name := "X", sessionID := 7 } })],
        mRequestsPerCommand := [(42, 0)] }
      0 2 42 [] (by decide)).2.2.1 2 (by decide),
   (getTypes_terminates
      { mCommandMapping :=
          [((42, { mType := 0 }),
              some { addr := 1, application := some { name := "X", sessionID := 7 } })],
        mRequestsPerCommand := [(42, 0)] }
      0 2 42 [] (by decide)).2.2.2 3 (by decide)⟩

/-! ## Lookup and enumeration -/

theorem mem_getTypes_list (cm : CommandMapping) (FIRST LAST : Int) (commandId : Nat)
    (hrange : FIRST ≤ LAST) (t : CommandType) :
    t ∈ (typesFrom FIRST (LAST - FIRST).toNat).filter (subscribed cm commandId) ↔
      (FIRST ≤ t.mType ∧ t.mType < LAST ∧
        mapFind cm.mCommandMapping (commandId, t) ≠ none) := by
  rw [List.mem_filter, mem_typesFrom]
  have hs : subscribed cm commandId t = true ↔
      mapFind cm.mCommandMapping (commandId, t) ≠ none := by
    unfold subscribed
    cases mapFind cm.mCommandMapping (commandId, t) <;> simp
  rw [hs]
  constructor
  · rintro ⟨⟨h1, h2⟩, h3⟩
    exact ⟨h1, by omega, h3⟩
  · rintro ⟨h1, h2, h3⟩
    exact ⟨⟨h1, by omega⟩, h3⟩

/-- Claim C20: with `FIRST ≤ LAST` and enough fuel, `getTypes(commandId)` returns a list
that contains every type `t` of `[FIRST, LAST)` for which the lookup of `(commandId, t)`
returns an item, and every element of the list is a key `(commandId, t)` of the
subscription table, whether or not the lookup of that key returns an item. -/
theorem lookup_enumeration_agree (cm : CommandMapping) (FIRST LAST : Int) (commandId : Nat)
    (types : List CommandType) (fuel : Nat) (hrange : FIRST ≤ LAST)
    (hfuel : (LAST - FIRST).toNat + 1 ≤ fuel) :
    ∃ l, getTypes fuel cm FIRST LAST commandId types = some l ∧
      (∀ t : CommandType, FIRST ≤ t.mType → t.mType < LAST →
        findRegistryItemAssignedToCommand cm commandId t ≠ none → t ∈ l) ∧
      (∀ t ∈ l, mapFind cm.mCommandMapping (commandId, t) ≠ none) := by
  refine ⟨_, getTypes_eq cm FIRST LAST commandId types fuel hrange hfuel, ?_, ?_⟩
  · intro t h1 h2 hfound
    rw [mem_getTypes_list cm FIRST LAST commandId hrange t]
    refine ⟨h1, h2, ?_⟩
    intro hnone
    apply hfound
    unfold findRegistryItemAssignedToCommand
    rw [hnone]
  · intro t ht
    exact ((mem_getTypes_list cm FIRST LAST commandId hrange t).mp ht).2.2

/-- Witness of C20: command 42 is subscribed for type 0 by X and for type 1 by an item
without application; the enumeration is `[0, 1]` although the lookup of `(42, 1)`
returns not-found. -/
theorem lookup_enumeration_agree_witness :
    (∃ l, getTypes 3
        { mCommandMapping :=
            [((42, { mType := 0 }),
                some { addr := 1, application := some { name := "X", sessionID := 7 } }),
             ((42, { mType := 1 }), some { addr := 2, application := none })],
          mRequestsPerCommand := [(42, 0)] }
        0 2 42 [] = some l ∧
      (∀ t ∈ l, mapFind
          [((42, { mType := 0 }),
              some { addr := 1, application := some { name := "X", sessionID := 7 } }),
           ((42, { mType := 1 }), (some { addr := 2, application := none } : ItemPtr))]
          (42, t) ≠ none)) ∧
    getTypes 3
        { mCommandMapping :=
            [((42, { mType := 0 }),
                some { addr := 1, application := some { name := "X", sessionID := 7 } }),
             ((42, { mType := 1 }), some { addr := 2, application := none })],
          mRequestsPerCommand := [(42, 0)] }
        0 2 42 [] = some [{ mType := 0 }, { mType := 1 }] ∧
    findRegistryItemAssignedToCommand
        { mCommandMapping :=
            [((42, { mType := 0 }),
                some { addr := 1, application := some { name := "X", sessionID := 7 } }),
             ((42, { mType := 1 }), some { addr := 2, application := none })],
          mRequestsPerCommand := [(42, 0)] }
        42 { mType := 1 } = none := by
  refine ⟨?_, by decide, by decide⟩
  obtain ⟨l, h1, _, h3⟩ := lookup_enumeration_agree
    { mCommandMapping :=
        [((42, { mType := 0 }),
            some { addr := 1, application := some { name := "X", sessionID := 7 } }),
         ((42, { mType := 1 }), some { addr := 2, application := none })],
      mRequestsPerCommand := [(42, 0)] }
    0 2 42 [] 3 (by decide) (by decide)
  exact ⟨l, h1, h3⟩


end NsAppManager
